import Mathlib

/-!
Verification development for the wrt WebAssembly runtime.

This file gives a shallow embedding, in Lean 4, of the parts of the wrt
sources that the checked claims are about:

* the core-module decoder (src/wrt/src/module.rs): LEB128, section
  parsers, `Module::load_from_binary`, `Module::validate`;
* the SIMD memory accesses (src/wrt/src/instructions/simd.rs):
  `v128_load`, `v128_store`;
* the execution engine (src/wrt/src/execution.rs): `Engine::invoke_export`,
  `Engine::execute`, `Engine::resume`, `Engine::set_fuel`;
* the intercept layer (src/wrt-intercept/src/lib.rs):
  `LinkInterceptor::intercept_call`;
* the async execution engine
  (src/wrt-component/src/async_/async_execution_engine.rs):
  `cancel_execution`, `step_execution`, `is_complete`.

Machine integers are modelled as `Nat`/`Int` with explicit reduction
modulo 2^32 / 2^64 / 2^128 where the Rust code wraps.  Rust strings are
modelled as their UTF-8 byte lists (`List Nat`); for the ASCII literals
appearing in the sources this is a byte-for-byte representation.
Rust panics (overflow of `/` and `%` on `i32`) are modelled by a
distinguished `panicked` outcome.
-/

namespace Wrt

/-! ## Machine integers -/

/-- 2^32, the modulus of `u32` arithmetic. -/
def u32Mod : Nat := 4294967296

/-- 2^31. -/
def i32Half : Nat := 2147483648

/-- The value `i32::MIN`. -/
def i32Min : Int := -2147483648

/-- Reinterpret a `u32` bit pattern as the signed `i32` it encodes. -/
def i32ofU32 (n : Nat) : Int :=
  if n < i32Half then (n : Int) else (n : Int) - (u32Mod : Int)

/-- Rust `v as u32` for `v : i32` (two's-complement bit pattern). -/
def toU32 (x : Int) : Nat := (Int.emod x (u32Mod : Int)).toNat

/-- Normalise an integer into the signed 32-bit range. -/
def toI32 (x : Int) : Int := i32ofU32 (toU32 x)

/-- Rust `i32::wrapping_add`. -/
def wrapAdd32 (a b : Int) : Int := i32ofU32 ((toU32 a + toU32 b) % u32Mod)

/-- Rust `i32::wrapping_sub`. -/
def wrapSub32 (a b : Int) : Int := i32ofU32 ((toU32 a + (u32Mod - toU32 b)) % u32Mod)

/-- Rust `i32::wrapping_mul`. -/
def wrapMul32 (a b : Int) : Int := i32ofU32 ((toU32 a * toU32 b) % u32Mod)

/-- Rust `i32::wrapping_div` (total; `MIN / -1` wraps to `MIN`). -/
def wrapDivS32 (a b : Int) : Int :=
  if a = i32Min ∧ b = -1 then i32Min else Int.tdiv a b

/-- Rust `i32` division by `/`: `none` models the panic on divisor 0 or
`MIN / -1` overflow (`/` on `i32` panics in every build profile there). -/
def rustDivI32 (a b : Int) : Option Int :=
  if b = 0 ∨ (a = i32Min ∧ b = -1) then none else some (Int.tdiv a b)

/-- Rust `i32` remainder by `%`: `none` models the panic on divisor 0 or
`MIN % -1` overflow. -/
def rustRemI32 (a b : Int) : Option Int :=
  if b = 0 ∨ (a = i32Min ∧ b = -1) then none else some (Int.tmod a b)

/-- Rust `i32::wrapping_shl` applied after the source masks the count with
`& 0x1F`: shift the bit pattern left, modulo 2^32. -/
def wrapShl32 (a : Int) (shift : Nat) : Int :=
  i32ofU32 ((toU32 a <<< (shift % 32)) % u32Mod)

/-- Rust `i32::wrapping_shr` (arithmetic shift of the signed value). -/
def wrapAShr32 (a : Int) (shift : Nat) : Int :=
  Int.fdiv (toI32 a) ((2 : Int) ^ (shift % 32))

/-- Rust `u32::wrapping_shr` on a `u32` bit pattern. -/
def wrapLShr32 (n : Nat) (shift : Nat) : Nat := n >>> (shift % 32)

/-- Rust `u32::rotate_right`. -/
def rotateRight32 (n : Nat) (shift : Nat) : Nat :=
  let s := shift % 32
  ((n >>> s) ||| ((n <<< (32 - s)) % u32Mod)) % u32Mod

/-! ## Bytes and strings

Rust `String` / `&str` values are modelled by their UTF-8 byte lists.
For ASCII (all literals in the embedded sources) the bytes coincide with
the character codes. -/

/-- The UTF-8 bytes of an ASCII string literal. -/
def asciiBytes (s : String) : List Nat := s.data.map Char.toNat

/-- Rust `str::starts_with` on byte lists. -/
def bytesStartsWith (s pat : List Nat) : Bool := pat.isPrefixOf s

/-- Rust `str::ends_with` on byte lists. -/
def bytesEndsWith (s pat : List Nat) : Bool := pat.isSuffixOf s

/-- Rust `str::contains` on byte lists (substring occurrence). -/
def bytesContains (s pat : List Nat) : Bool :=
  match s with
  | [] => pat.isEmpty
  | _ :: rest => pat.isPrefixOf s || bytesContains rest pat

/-- Is `b` a UTF-8 continuation byte (`0x80..=0xBF`)? -/
def utf8Cont (b : Nat) : Bool := 0x80 ≤ b && b ≤ 0xBF

/-- UTF-8 validity of a byte list, as checked by Rust
`String::from_utf8`. -/
def utf8Valid : List Nat → Bool
  | [] => true
  | b :: rest =>
    if b < 0x80 then utf8Valid rest
    else if 0xC2 ≤ b && b ≤ 0xDF then
      match rest with
      | c1 :: rest1 => utf8Cont c1 && utf8Valid rest1
      | [] => false
    else if b = 0xE0 then
      match rest with
      | c1 :: c2 :: rest2 => (0xA0 ≤ c1 && c1 ≤ 0xBF) && utf8Cont c2 && utf8Valid rest2
      | _ => false
    else if (0xE1 ≤ b && b ≤ 0xEC) || b = 0xEE || b = 0xEF then
      match rest with
      | c1 :: c2 :: rest2 => utf8Cont c1 && utf8Cont c2 && utf8Valid rest2
      | _ => false
    else if b = 0xED then
      match rest with
      | c1 :: c2 :: rest2 => (0x80 ≤ c1 && c1 ≤ 0x9F) && utf8Cont c2 && utf8Valid rest2
      | _ => false
    else if b = 0xF0 then
      match rest with
      | c1 :: c2 :: c3 :: rest3 =>
        (0x90 ≤ c1 && c1 ≤ 0xBF) && utf8Cont c2 && utf8Cont c3 && utf8Valid rest3
      | _ => false
    else if 0xF1 ≤ b && b ≤ 0xF3 then
      match rest with
      | c1 :: c2 :: c3 :: rest3 =>
        utf8Cont c1 && utf8Cont c2 && utf8Cont c3 && utf8Valid rest3
      | _ => false
    else if b = 0xF4 then
      match rest with
      | c1 :: c2 :: c3 :: rest3 =>
        (0x80 ≤ c1 && c1 ≤ 0x8F) && utf8Cont c2 && utf8Cont c3 && utf8Valid rest3
      | _ => false
    else false

/-! ## Error type (src/wrt/src/error.rs is summarised by its uses)

The `Execution` message is kept structured where a claim depends on its
contents (the memory out-of-bounds reports); other `format!` payloads
are reduced to their static text. -/

/-- Structured payloads of `Error::Execution` messages. -/
inductive EMsg where
  /-- the simd.rs message with address, static offset and memory size -/
  | memoryOutOfBounds (addr offset size : Nat)
  /-- the execution.rs SIMD helper message with address and memory size -/
  | simdMemoryOutOfBounds (addr size : Nat)
  /-- any other execution error, identified by its static text -/
  | text (s : String)
deriving DecidableEq

/-- The wrt error enum, restricted to the variants the embedded code
constructs. -/
inductive WError where
  | Parse (msg : String)
  | Validation (msg : String)
  | Execution (msg : EMsg)
  | StackUnderflow
  | DivisionByZero
  | IntegerOverflow
  | ExportNotFound (name : List Nat)
deriving DecidableEq

/-- Outcome of running a piece of embedded Rust code: a value, an
`Err` of the wrt error enum, or a Rust panic (arithmetic overflow or
out-of-bounds indexing without a preceding check). -/
inductive Outcome (α : Type) where
  | ok (a : α)
  | err (e : WError)
  | panicked
deriving DecidableEq

instance : Monad Outcome where
  pure := .ok
  bind m f :=
    match m with
    | .ok a => f a
    | .err e => .err e
    | .panicked => .panicked

/-! ## Decoder data model (src/wrt/src/module.rs) -/

/-- WebAssembly value types (`crate::types::ValueType`; that file is
not among the sources, so the variant set is the one its users need:
the six produced by `parse_value_type` plus `V128` and the reserved
`I16x8` named by the spec). -/
inductive ValueType where
  | I32 | I64 | F32 | F64 | V128 | I16x8 | FuncRef | ExternRef
deriving DecidableEq

/-- Block types parsed by `parse_block_type`.  (`Type` being a Lean
keyword, that constructor is called `TypeVal`.) -/
inductive BlockType where
  | Empty
  | TypeVal (vt : ValueType)
deriving DecidableEq

/-- The pre-decoded instruction enum, restricted to the variants
`parse_instruction` produces. Float immediates are kept as their
little-endian bit patterns. -/
inductive Instruction where
  | Unreachable | Nop
  | Block (bt : BlockType) | Loop (bt : BlockType) | If (bt : BlockType)
  | Else | End
  | Br (label : Nat) | BrIf (label : Nat)
  | BrTable (targets : List Nat) (default : Nat)
  | Return | Call (f : Nat) | CallIndirect (ty : Nat) (table : Nat)
  | Drop | Select
  | LocalGet (i : Nat) | LocalSet (i : Nat) | LocalTee (i : Nat)
  | GlobalGet (i : Nat) | GlobalSet (i : Nat)
  | I32Load (align offset : Nat) | I64Load (align offset : Nat)
  | F32Load (align offset : Nat) | F64Load (align offset : Nat)
  | I32Const (v : Int) | I64Const (v : Int)
  | F32Const (bits : Nat) | F64Const (bits : Nat)
  | I32Eqz | I32Eq | I32Ne | I32LtS | I32LtU | I32GtS | I32GtU
  | I32LeS | I32LeU | I32GeS | I32GeU
  | I32Add | I32Sub | I32Mul | I32DivS | I32DivU
deriving DecidableEq

/-- `FuncType`. -/
structure FuncType where
  params : List ValueType
  results : List ValueType
deriving DecidableEq

/-- `TableType`. -/
structure TableType where
  element_type : ValueType
  min : Nat
  max : Option Nat
deriving DecidableEq

/-- `MemoryType`. -/
structure MemoryType where
  min : Nat
  max : Option Nat
deriving DecidableEq

/-- `GlobalType`. -/
structure GlobalType where
  content_type : ValueType
  mutable : Bool
deriving DecidableEq

/-- `ExternType` of an import. -/
inductive ExternType where
  | Function (ft : FuncType)
  | Table (tt : TableType)
  | Memory (mt : MemoryType)
  | Global (gt : GlobalType)
deriving DecidableEq

/-- `Import`. -/
structure Import where
  module : List Nat
  name : List Nat
  ty : ExternType
deriving DecidableEq

/-- `Function` (decoder side). -/
structure MFunction where
  type_idx : Nat
  locals : List ValueType
  body : List Instruction
deriving DecidableEq

/-- `Element`. -/
structure Element where
  table_idx : Nat
  offset : List Instruction
  init : List Nat
deriving DecidableEq

/-- `Data`. -/
structure DataSeg where
  memory_idx : Nat
  offset : List Instruction
  init : List Nat
deriving DecidableEq

/-- `CustomSection`. -/
structure CustomSection where
  name : List Nat
  data : List Nat
deriving DecidableEq

/-- `ExportKind`. -/
inductive ExportKind where
  | Function | Table | Memory | Global
deriving DecidableEq

/-- `Export`. -/
structure Export where
  name : List Nat
  kind : ExportKind
  index : Nat
deriving DecidableEq

/-- The decoded `Module`. -/
structure Module where
  types : List FuncType := []
  imports : List Import := []
  functions : List MFunction := []
  tables : List TableType := []
  memories : List MemoryType := []
  globals : List GlobalType := []
  elements : List Element := []
  data : List DataSeg := []
  start : Option Nat := none
  custom_sections : List CustomSection := []
  exports : List Export := []
deriving DecidableEq

/-- `Module::new`. -/
def Module.new : Module := {}

/-! ## LEB128 (src/wrt/src/module.rs) -/

/-- Loop body of `read_leb128_u32`; the byte list is the unread suffix,
`shift` and `acc` mirror the mutable locals, `pos` counts consumed
bytes. -/
def read_leb128_u32_aux : List Nat → Nat → Nat → Nat → Outcome (Nat × Nat)
  | [], _, _, _ => .err (.Parse "Unexpected end of LEB128 sequence")
  | b :: rest, shift, acc, pos =>
    if shift ≥ 32 then .err (.Parse "LEB128 value overflow")
    else
      let acc := acc ||| (((b &&& 0x7F) <<< shift) % u32Mod)
      if b &&& 0x80 = 0 then .ok (acc, pos + 1)
      else read_leb128_u32_aux rest (shift + 7) acc (pos + 1)

/-- `read_leb128_u32`: decoded value and number of bytes read. -/
def read_leb128_u32 (bytes : List Nat) : Outcome (Nat × Nat) :=
  read_leb128_u32_aux bytes 0 0 0

/-- Loop body of `read_leb128_i32`, on the `u32` bit pattern of the
`i32` accumulator; also returns the final `shift` and `sign_bit`. -/
def read_leb128_i32_aux : List Nat → Nat → Nat → Nat → Outcome (Nat × Nat × Nat × Nat)
  | [], _, _, _ => .err (.Parse "Unexpected end of LEB128 sequence")
  | b :: rest, shift, acc, pos =>
    if shift ≥ 32 then .err (.Parse "LEB128 value overflow")
    else
      let acc := acc ||| (((b &&& 0x7F) <<< shift) % u32Mod)
      let signBit := 0x40 &&& b
      if b &&& 0x80 = 0 then .ok (acc, signBit, shift + 7, pos + 1)
      else read_leb128_i32_aux rest (shift + 7) acc (pos + 1)

/-- `read_leb128_i32`: decoded signed value and number of bytes read. -/
def read_leb128_i32 (bytes : List Nat) : Outcome (Int × Nat) := do
  let (acc, signBit, shift, pos) ← read_leb128_i32_aux bytes 0 0 0
  let pattern :=
    if signBit ≠ 0 ∧ shift < 32 then
      (acc ||| ((((u32Mod - 1) <<< shift)) % u32Mod)) % u32Mod
    else acc
  .ok (i32ofU32 pattern, pos)

/-- Loop body of `read_leb128_i64`, on the `u64` bit pattern. -/
def read_leb128_i64_aux : List Nat → Nat → Nat → Nat → Outcome (Nat × Nat × Nat × Nat)
  | [], _, _, _ => .err (.Parse "Unexpected end of LEB128 sequence")
  | b :: rest, shift, acc, pos =>
    if shift ≥ 64 then .err (.Parse "LEB128 value overflow")
    else
      let acc := acc ||| (((b &&& 0x7F) <<< shift) % 18446744073709551616)
      let signBit := 0x40 &&& b
      if b &&& 0x80 = 0 then .ok (acc, signBit, shift + 7, pos + 1)
      else read_leb128_i64_aux rest (shift + 7) acc (pos + 1)

/-- Reinterpret a `u64` bit pattern as a signed `i64`. -/
def i64ofU64 (n : Nat) : Int :=
  if n < 9223372036854775808 then (n : Int) else (n : Int) - 18446744073709551616

/-- `read_leb128_i64`. -/
def read_leb128_i64 (bytes : List Nat) : Outcome (Int × Nat) := do
  let (acc, signBit, shift, pos) ← read_leb128_i64_aux bytes 0 0 0
  let pattern :=
    if signBit ≠ 0 ∧ shift < 64 then
      (acc ||| (((18446744073709551615 <<< shift)) % 18446744073709551616)) % 18446744073709551616
    else acc
  .ok (i64ofU64 pattern, pos)

/-! ## Leaf parsers -/

/-- `parse_value_type`. -/
def parse_value_type (byte : Nat) : Outcome ValueType :=
  if byte = 0x7F then .ok .I32
  else if byte = 0x7E then .ok .I64
  else if byte = 0x7D then .ok .F32
  else if byte = 0x7C then .ok .F64
  else if byte = 0x70 then .ok .FuncRef
  else if byte = 0x6F then .ok .ExternRef
  else .err (.Parse "Invalid value type")

/-- Loop of `parse_vector`: parse `count` items, threading the unread
suffix and the total number of bytes consumed. -/
def parse_vector_loop (f : List Nat → Outcome (α × Nat)) :
    Nat → List Nat → Nat → List α → Outcome (List α × Nat)
  | 0, _, consumed, acc => .ok (acc.reverse, consumed)
  | n + 1, bytes, consumed, acc => do
    let (item, k) ← f bytes
    parse_vector_loop f n (bytes.drop k) (consumed + k) (item :: acc)

/-- `parse_vector`: LEB128 length followed by that many items. -/
def parse_vector (f : List Nat → Outcome (α × Nat)) (bytes : List Nat) :
    Outcome (List α × Nat) := do
  let (length, k) ← read_leb128_u32 bytes
  parse_vector_loop f length (bytes.drop k) k []

/-- `parse_name`: LEB128 length, then that many UTF-8 bytes. -/
def parse_name (bytes : List Nat) : Outcome (List Nat × Nat) := do
  let (length, k) ← read_leb128_u32 bytes
  if k + length > bytes.length then
    .err (.Parse "String extends beyond end of section")
  else
    let nameBytes := (bytes.drop k).take length
    if utf8Valid nameBytes then .ok (nameBytes, k + length)
    else .err (.Parse "Invalid UTF-8 in name")

/-! ## Section parsers (src/wrt/src/module.rs)

Each parser receives the byte list of its section payload; the running
cursor of the source is mirrored by recursing on the unread suffix. -/

/-- Item parser used for parameter and result types in the type
section: one value-type byte. -/
def parse_vt_item (msg : String) (bytes : List Nat) : Outcome (ValueType × Nat) :=
  match bytes with
  | [] => .err (.Parse msg)
  | b :: _ => do
    let vt ← parse_value_type b
    .ok (vt, 1)

/-- Per-entry loop of `parse_type_section`. -/
def parse_type_section_loop : Nat → List Nat → Module → Outcome Module
  | 0, _, m => .ok m
  | n + 1, bytes, m =>
    match bytes with
    | [] => .err (.Parse "Unexpected end of type section")
    | b :: rest =>
      if b ≠ 0x60 then .err (.Parse "Invalid function type marker")
      else do
        let (params, k1) ← parse_vector (parse_vt_item "Unexpected end of parameter types") rest
        let (results, k2) ← parse_vector (parse_vt_item "Unexpected end of result types") (rest.drop k1)
        parse_type_section_loop n ((rest.drop k1).drop k2)
          { m with types := m.types ++ [{ params := params, results := results }] }

/-- `parse_type_section` (section code 1). -/
def parse_type_section (m : Module) (bytes : List Nat) : Outcome Module := do
  let (count, k) ← read_leb128_u32 bytes
  parse_type_section_loop count (bytes.drop k) m

/-- The import-kind dispatch of `parse_import_section`: parses
one import descriptor from the bytes following the two names.
Returns the descriptor and the bytes it consumed.  Unchecked `bytes[cursor]`
indexing in the source is modelled by `panicked`. -/
def parse_import_desc (m : Module) (bytes : List Nat) : Outcome (ExternType × Nat) :=
  match bytes with
  | [] => .err (.Parse "Unexpected end of import section")
  | kind :: rest =>
    if kind = 0x00 then
      match rest with
      | [] => .err (.Parse "Unexpected end of function import")
      | _ => do
        let (type_idx, k) ← read_leb128_u32 rest
        if type_idx ≥ m.types.length then
          .err (.Validation "Import references invalid type index")
        else
          match m.types.get? type_idx with
          | none => .panicked
          | some ft => .ok (.Function ft, 1 + k)
    else if kind = 0x01 then
      match rest with
      | [] => .err (.Parse "Unexpected end of table import")
      | et :: rest1 => do
        let elemType ←
          if et = 0x70 then .ok ValueType.FuncRef
          else if et = 0x6F then .ok ValueType.ExternRef
          else .err (.Parse "Invalid element type")
        match rest1 with
        | [] => .panicked
        | flag :: rest2 => do
          let (min, k1) ← read_leb128_u32 rest2
          if flag &&& 0x01 ≠ 0 then do
            let (max, k2) ← read_leb128_u32 (rest2.drop k1)
            .ok (.Table { element_type := elemType, min := min, max := some max },
                 3 + k1 + k2)
          else
            .ok (.Table { element_type := elemType, min := min, max := none }, 3 + k1)
    else if kind = 0x02 then
      match rest with
      | [] => .panicked
      | flag :: rest1 => do
        let (min, k1) ← read_leb128_u32 rest1
        if flag &&& 0x01 ≠ 0 then do
          let (max, k2) ← read_leb128_u32 (rest1.drop k1)
          .ok (.Memory { min := min, max := some max }, 2 + k1 + k2)
        else
          .ok (.Memory { min := min, max := none }, 2 + k1)
    else if kind = 0x03 then
      match rest with
      | [] => .err (.Parse "Unexpected end of global import")
      | vt :: rest1 => do
        let valueType ← parse_value_type vt
        match rest1 with
        | [] => .err (.Parse "Unexpected end of global import")
        | mutByte :: _ =>
          .ok (.Global { content_type := valueType, mutable := mutByte ≠ 0 }, 3)
    else .err (.Parse "Unknown import kind")

/-- Per-entry loop of `parse_import_section`. -/
def parse_import_section_loop : Nat → List Nat → Module → Outcome Module
  | 0, _, m => .ok m
  | n + 1, bytes, m => do
    let (moduleName, k1) ← parse_name bytes
    let (importName, k2) ← parse_name (bytes.drop k1)
    let (ty, k3) ← parse_import_desc m ((bytes.drop k1).drop k2)
    parse_import_section_loop n (((bytes.drop k1).drop k2).drop k3)
      { m with imports := m.imports ++ [{ module := moduleName, name := importName, ty := ty }] }

/-- `parse_import_section` (section code 2). -/
def parse_import_section (m : Module) (bytes : List Nat) : Outcome Module := do
  let (count, k) ← read_leb128_u32 bytes
  parse_import_section_loop count (bytes.drop k) m

/-- Per-entry loop of `parse_function_section`. -/
def parse_function_section_loop : Nat → List Nat → Module → Outcome Module
  | 0, _, m => .ok m
  | n + 1, bytes, m => do
    let (type_idx, k) ← read_leb128_u32 bytes
    if type_idx ≥ m.types.length then
      .err (.Validation "Function references invalid type index")
    else
      parse_function_section_loop n (bytes.drop k)
        { m with functions := m.functions ++ [{ type_idx := type_idx, locals := [], body := [] }] }

/-- `parse_function_section` (section code 3). -/
def parse_function_section (m : Module) (bytes : List Nat) : Outcome Module := do
  let (count, k) ← read_leb128_u32 bytes
  parse_function_section_loop count (bytes.drop k) m

/-- Per-entry loop of `parse_table_section`. -/
def parse_table_section_loop : Nat → List Nat → Module → Outcome Module
  | 0, _, m => .ok m
  | n + 1, bytes, m =>
    match bytes with
    | [] => .err (.Parse "Unexpected end of table section")
    | et :: rest => do
      let elemType ←
        if et = 0x70 then .ok ValueType.FuncRef
        else if et = 0x6F then .ok ValueType.ExternRef
        else .err (.Parse "Invalid element type")
      match rest with
      | [] => .err (.Parse "Unexpected end of table limits")
      | flag :: rest1 => do
        let (min, k1) ← read_leb128_u32 rest1
        if flag &&& 0x01 ≠ 0 then do
          let (max, k2) ← read_leb128_u32 (rest1.drop k1)
          parse_table_section_loop n ((rest1.drop k1).drop k2)
            { m with tables := m.tables ++ [{ element_type := elemType, min := min, max := some max }] }
        else
          parse_table_section_loop n (rest1.drop k1)
            { m with tables := m.tables ++ [{ element_type := elemType, min := min, max := none }] }

/-- `parse_table_section` (section code 4).  The source rejects any
table count above one. -/
def parse_table_section (m : Module) (bytes : List Nat) : Outcome Module := do
  let (count, k) ← read_leb128_u32 bytes
  if count > 1 then .err (.Parse "Too many tables in module")
  else parse_table_section_loop count (bytes.drop k) m

/-- Per-entry loop of `parse_memory_section`. -/
def parse_memory_section_loop : Nat → List Nat → Module → Outcome Module
  | 0, _, m => .ok m
  | n + 1, bytes, m =>
    match bytes with
    | [] => .err (.Parse "Unexpected end of memory section")
    | flags :: rest => do
      let (initial, k1) ← read_leb128_u32 rest
      if flags &&& 0x01 ≠ 0 then do
        let (max, k2) ← read_leb128_u32 (rest.drop k1)
        parse_memory_section_loop n ((rest.drop k1).drop k2)
          { m with memories := m.memories ++ [{ min := initial, max := some max }] }
      else
        parse_memory_section_loop n (rest.drop k1)
          { m with memories := m.memories ++ [{ min := initial, max := none }] }

/-- `parse_memory_section` (section code 5). -/
def parse_memory_section (m : Module) (bytes : List Nat) : Outcome Module := do
  let (count, k) ← read_leb128_u32 bytes
  if count > 1 then .err (.Parse "Too many memories in module")
  else parse_memory_section_loop count (bytes.drop k) m

/-- The `while bytes[cursor] != 0x0B` scan used for init and offset
expressions: number of bytes skipped and the suffix starting at the
first `0x0B`, or `none` when the input runs out first. -/
def scanToEndOpcode : List Nat → Option (Nat × List Nat)
  | [] => none
  | b :: rest =>
    if b = 0x0B then some (0, b :: rest)
    else (scanToEndOpcode rest).map (fun p => (p.1 + 1, p.2))

/-- Per-entry loop of `parse_global_section`.  The init expression is
not decoded: the source scans forward to the first `0x0B` byte. -/
def parse_global_section_loop : Nat → List Nat → Module → Outcome Module
  | 0, _, m => .ok m
  | n + 1, bytes, m =>
    match bytes with
    | [] => .err (.Parse "Unexpected end of global section")
    | vt :: rest => do
      let valueType ← parse_value_type vt
      match rest with
      | [] => .err (.Parse "Unexpected end of global mutability")
      | mutByte :: rest1 =>
        match scanToEndOpcode rest1 with
        | none => .err (.Parse "Invalid global initialization expression")
        | some (_, endSuffix) =>
          parse_global_section_loop n (endSuffix.drop 1)
            { m with globals := m.globals ++ [{ content_type := valueType, mutable := mutByte ≠ 0 }] }

/-- `parse_global_section` (section code 6). -/
def parse_global_section (m : Module) (bytes : List Nat) : Outcome Module := do
  let (count, k) ← read_leb128_u32 bytes
  parse_global_section_loop count (bytes.drop k) m

/-- Per-entry loop of `parse_export_section`. -/
def parse_export_section_loop : Nat → List Nat → Module → Outcome Module
  | 0, _, m => .ok m
  | n + 1, bytes, m => do
    let (name, k1) ← parse_name bytes
    match bytes.drop k1 with
    | [] => .err (.Parse "Unexpected end of export section")
    | kb :: rest => do
      let kind ←
        if kb = 0x00 then .ok ExportKind.Function
        else if kb = 0x01 then .ok ExportKind.Table
        else if kb = 0x02 then .ok ExportKind.Memory
        else if kb = 0x03 then .ok ExportKind.Global
        else .err (.Parse "Invalid export kind")
      let (index, k2) ← read_leb128_u32 rest
      parse_export_section_loop n (rest.drop k2)
        { m with exports := m.exports ++ [{ name := name, kind := kind, index := index }] }

/-- `parse_export_section` (section code 7). -/
def parse_export_section (m : Module) (bytes : List Nat) : Outcome Module := do
  let (count, k) ← read_leb128_u32 bytes
  parse_export_section_loop count (bytes.drop k) m

/-- `parse_start_section` (section code 8). -/
def parse_start_section (m : Module) (bytes : List Nat) : Outcome Module :=
  if bytes.isEmpty then .err (.Parse "Empty start section")
  else do
    let (start_idx, _) ← read_leb128_u32 bytes
    .ok { m with start := some start_idx }

/-- Function-index list loop of `parse_element_section`. -/
def parse_element_indices : Nat → List Nat → List Nat → Outcome (List Nat × List Nat)
  | 0, bytes, acc => .ok (acc.reverse, bytes)
  | n + 1, bytes, acc => do
    let (index, k) ← read_leb128_u32 bytes
    parse_element_indices n (bytes.drop k) (index :: acc)

/-- Per-entry loop of `parse_element_section`.  Offset expressions are
skipped to the first `0x0B` and replaced by the placeholder
`i32.const 0`, as in the source. -/
def parse_element_section_loop : Nat → List Nat → Module → Outcome Module
  | 0, _, m => .ok m
  | n + 1, bytes, m => do
    let (table_idx, k1) ← read_leb128_u32 bytes
    match scanToEndOpcode (bytes.drop k1) with
    | none => .err (.Parse "Invalid element offset expression")
    | some (_, endSuffix) => do
      let afterEnd := endSuffix.drop 1
      let (numIndices, k2) ← read_leb128_u32 afterEnd
      let (indices, rest) ← parse_element_indices numIndices (afterEnd.drop k2) []
      parse_element_section_loop n rest
        { m with elements := m.elements ++
            [{ table_idx := table_idx, offset := [.I32Const 0], init := indices }] }

/-- `parse_element_section` (section code 9). -/
def parse_element_section (m : Module) (bytes : List Nat) : Outcome Module := do
  let (count, k) ← read_leb128_u32 bytes
  parse_element_section_loop count (bytes.drop k) m

/-- Per-entry loop of `parse_data_section`. -/
def parse_data_section_loop : Nat → List Nat → Module → Outcome Module
  | 0, _, m => .ok m
  | n + 1, bytes, m => do
    let (memory_idx, k1) ← read_leb128_u32 bytes
    match scanToEndOpcode (bytes.drop k1) with
    | none => .err (.Parse "Invalid data offset expression")
    | some (_, endSuffix) => do
      let afterEnd := endSuffix.drop 1
      let (dataSize, k2) ← read_leb128_u32 afterEnd
      if k2 + dataSize > afterEnd.length then
        .err (.Parse "Data segment extends beyond end of section")
      else
        parse_data_section_loop n ((afterEnd.drop k2).drop dataSize)
          { m with data := m.data ++
              [{ memory_idx := memory_idx, offset := [.I32Const 0],
                 init := (afterEnd.drop k2).take dataSize }] }

/-- `parse_data_section` (section code 11). -/
def parse_data_section (m : Module) (bytes : List Nat) : Outcome Module := do
  let (count, k) ← read_leb128_u32 bytes
  parse_data_section_loop count (bytes.drop k) m

/-! ## Instruction parsing (code section) -/

/-- `parse_block_type`. -/
def parse_block_type (bytes : List Nat) : Outcome (BlockType × Nat) :=
  match bytes with
  | [] => .err (.Parse "Unexpected end of block type")
  | b :: _ =>
    if b = 0x40 then .ok (.Empty, 1)
    else do
      let vt ← parse_value_type b
      .ok (.TypeVal vt, 1)

/-- Target-list loop of the `br_table` arm. -/
def parse_br_table_targets : Nat → List Nat → List Nat → Outcome (List Nat × Nat)
  | 0, _, acc => .ok (acc.reverse, 0)
  | n + 1, bytes, acc => do
    let (target, k) ← read_leb128_u32 bytes
    let (targets, rest) ← parse_br_table_targets n (bytes.drop k) (target :: acc)
    .ok (targets, k + rest)

/-- `parse_instruction`: one instruction from the slice, the bytes it
consumed, and the block-nesting depth delta applied to the `&mut i32`
depth counter. -/
def parse_instruction (bytes : List Nat) (depth : Int) :
    Outcome (Instruction × Nat × Int) :=
  match bytes with
  | [] => .err (.Parse "Unexpected end of instruction stream")
  | opcode :: rest =>
    if opcode = 0x00 then .ok (.Unreachable, 1, depth)
    else if opcode = 0x01 then .ok (.Nop, 1, depth)
    else if opcode = 0x02 then do
      let (bt, k) ← parse_block_type rest
      .ok (.Block bt, 1 + k, depth + 1)
    else if opcode = 0x03 then do
      let (bt, k) ← parse_block_type rest
      .ok (.Loop bt, 1 + k, depth + 1)
    else if opcode = 0x04 then do
      let (bt, k) ← parse_block_type rest
      .ok (.If bt, 1 + k, depth + 1)
    else if opcode = 0x05 then .ok (.Else, 1, depth)
    else if opcode = 0x0B then .ok (.End, 1, depth - 1)
    else if opcode = 0x0C then do
      let (l, k) ← read_leb128_u32 rest
      .ok (.Br l, 1 + k, depth)
    else if opcode = 0x0D then do
      let (l, k) ← read_leb128_u32 rest
      .ok (.BrIf l, 1 + k, depth)
    else if opcode = 0x0E then do
      let (targetCount, k1) ← read_leb128_u32 rest
      let (targets, k2) ← parse_br_table_targets targetCount (rest.drop k1) []
      let (defaultTarget, k3) ← read_leb128_u32 ((rest.drop k1).drop k2)
      .ok (.BrTable targets defaultTarget, 1 + k1 + k2 + k3, depth)
    else if opcode = 0x0F then .ok (.Return, 1, depth)
    else if opcode = 0x10 then do
      let (f, k) ← read_leb128_u32 rest
      .ok (.Call f, 1 + k, depth)
    else if opcode = 0x11 then do
      let (tyIdx, k) ← read_leb128_u32 rest
      match rest.drop k with
      | [] => .err (.Parse "Unexpected end of call_indirect instruction")
      | tb :: _ =>
        if tb ≠ 0 then .err (.Parse "Invalid table index in call_indirect")
        else .ok (.CallIndirect tyIdx 0, 1 + k + 1, depth)
    else if opcode = 0x1A then .ok (.Drop, 1, depth)
    else if opcode = 0x1B then .ok (.Select, 1, depth)
    else if opcode = 0x20 then do
      let (i, k) ← read_leb128_u32 rest
      .ok (.LocalGet i, 1 + k, depth)
    else if opcode = 0x21 then do
      let (i, k) ← read_leb128_u32 rest
      .ok (.LocalSet i, 1 + k, depth)
    else if opcode = 0x22 then do
      let (i, k) ← read_leb128_u32 rest
      .ok (.LocalTee i, 1 + k, depth)
    else if opcode = 0x23 then do
      let (i, k) ← read_leb128_u32 rest
      .ok (.GlobalGet i, 1 + k, depth)
    else if opcode = 0x24 then do
      let (i, k) ← read_leb128_u32 rest
      .ok (.GlobalSet i, 1 + k, depth)
    else if opcode = 0x28 then do
      let (a, k1) ← read_leb128_u32 rest
      let (o, k2) ← read_leb128_u32 (rest.drop k1)
      .ok (.I32Load a o, 1 + k1 + k2, depth)
    else if opcode = 0x29 then do
      let (a, k1) ← read_leb128_u32 rest
      let (o, k2) ← read_leb128_u32 (rest.drop k1)
      .ok (.I64Load a o, 1 + k1 + k2, depth)
    else if opcode = 0x2A then do
      let (a, k1) ← read_leb128_u32 rest
      let (o, k2) ← read_leb128_u32 (rest.drop k1)
      .ok (.F32Load a o, 1 + k1 + k2, depth)
    else if opcode = 0x2B then do
      let (a, k1) ← read_leb128_u32 rest
      let (o, k2) ← read_leb128_u32 (rest.drop k1)
      .ok (.F64Load a o, 1 + k1 + k2, depth)
    else if opcode = 0x41 then do
      let (v, k) ← read_leb128_i32 rest
      .ok (.I32Const v, 1 + k, depth)
    else if opcode = 0x42 then do
      let (v, k) ← read_leb128_i64 rest
      .ok (.I64Const v, 1 + k, depth)
    else if opcode = 0x43 then
      match rest with
      | b0 :: b1 :: b2 :: b3 :: _ =>
        .ok (.F32Const (b0 + b1 * 256 + b2 * 65536 + b3 * 16777216), 5, depth)
      | _ => .err (.Parse "Unexpected end of f32.const instruction")
    else if opcode = 0x44 then
      match rest with
      | b0 :: b1 :: b2 :: b3 :: b4 :: b5 :: b6 :: b7 :: _ =>
        .ok (.F64Const (b0 + b1 * 256 + b2 * 65536 + b3 * 16777216 +
              b4 * 4294967296 + b5 * 1099511627776 +
              b6 * 281474976710656 + b7 * 72057594037927936), 9, depth)
      | _ => .err (.Parse "Unexpected end of f64.const instruction")
    else if opcode = 0x45 then .ok (.I32Eqz, 1, depth)
    else if opcode = 0x46 then .ok (.I32Eq, 1, depth)
    else if opcode = 0x47 then .ok (.I32Ne, 1, depth)
    else if opcode = 0x48 then .ok (.I32LtS, 1, depth)
    else if opcode = 0x49 then .ok (.I32LtU, 1, depth)
    else if opcode = 0x4A then .ok (.I32GtS, 1, depth)
    else if opcode = 0x4B then .ok (.I32GtU, 1, depth)
    else if opcode = 0x4C then .ok (.I32LeS, 1, depth)
    else if opcode = 0x4D then .ok (.I32LeU, 1, depth)
    else if opcode = 0x4E then .ok (.I32GeS, 1, depth)
    else if opcode = 0x4F then .ok (.I32GeU, 1, depth)
    else if opcode = 0x6A then .ok (.I32Add, 1, depth)
    else if opcode = 0x6B then .ok (.I32Sub, 1, depth)
    else if opcode = 0x6C then .ok (.I32Mul, 1, depth)
    else if opcode = 0x6D then .ok (.I32DivS, 1, depth)
    else if opcode = 0x6E then .ok (.I32DivU, 1, depth)
    else .err (.Parse "Unimplemented or invalid instruction opcode")

/-- Local-declaration loop of `parse_code_section`: `locals_count` runs
of `(count, value_type)`.  `bodyRemaining` is the number of bytes left
before `body_end` (the value-type bounds check is against `body_end`,
while the LEB reads range over the whole section like in the source;
inside one body both coincide on the bytes actually read). -/
def parse_code_locals : Nat → List Nat → Nat → List ValueType →
    Outcome (List ValueType × List Nat × Nat)
  | 0, bytes, bodyRemaining, acc => .ok (acc, bytes, bodyRemaining)
  | n + 1, bytes, bodyRemaining, acc => do
    let (localCount, k) ← read_leb128_u32 bytes
    if bodyRemaining ≤ k then
      .err (.Parse "Unexpected end of function body during locals parsing")
    else
      match bytes.drop k with
      | [] => .err (.Parse "Unexpected end of function body during locals parsing")
      | vb :: rest => do
        let vt ← parse_value_type vb
        parse_code_locals n rest (bodyRemaining - k - 1) (acc ++ List.replicate localCount vt)

/-- Instruction loop of one code-section body, over the slice
`bytes[cursor..body_end]`.  Returns the instructions, the bytes
consumed, and whether the loop left by the `End`-at-depth-0 break.
`fuel` bounds the iteration count (each iteration consumes at least one
byte, so `slice.length + 1` is always enough). -/
def parse_code_body_loop : Nat → List Nat → Int → List Instruction → Nat →
    Outcome (List Instruction × Int × Nat)
  | 0, _, _, _, _ => .err (.Parse "internal: code body fuel exhausted")
  | _ + 1, [], depth, acc, consumed => .ok (acc, depth, consumed)
  | fuel + 1, b :: rest, depth, acc, consumed =>
    if b = 0x0B ∧ depth = 0 then .ok (acc, depth, consumed + 1)
    else do
      let (instr, k, depth1) ← parse_instruction (b :: rest) depth
      parse_code_body_loop fuel ((b :: rest).drop k) depth1 (acc ++ [instr]) (consumed + k)

/-- Per-entry loop of `parse_code_section`. -/
def parse_code_section_loop : Nat → Nat → List Nat → Module → Outcome Module
  | 0, _, _, m => .ok m
  | n + 1, funcIdx, bytes, m => do
    let (bodySize, k1) ← read_leb128_u32 bytes
    let afterSize := bytes.drop k1
    if bodySize > afterSize.length then
      .err (.Parse "Function body extends beyond end of section")
    else do
      let (localsCount, k2) ← read_leb128_u32 afterSize
      let (locals, afterLocals, bodyRemaining) ←
        parse_code_locals localsCount (afterSize.drop k2) (bodySize - k2) []
      let slice := afterLocals.take bodyRemaining
      let (instrs, depth, consumed) ←
        parse_code_body_loop (slice.length + 1) slice 0 [] 0
      if depth ≠ 0 then .err (.Parse "Unbalanced blocks in function body")
      else if consumed ≠ bodyRemaining then
        .err (.Parse "Function body parsing ended at unexpected position")
      else if funcIdx < m.functions.length then
        let oldFunc := m.functions.getD funcIdx { type_idx := 0, locals := [], body := [] }
        let newFuncs := m.functions.set funcIdx { oldFunc with locals := locals, body := instrs }
        parse_code_section_loop n (funcIdx + 1) (afterLocals.drop consumed)
          { m with functions := newFuncs }
      else .err (.Parse "Function index out of bounds")

/-- `parse_code_section` (section code 10). -/
def parse_code_section (m : Module) (bytes : List Nat) : Outcome Module := do
  let (count, k) ← read_leb128_u32 bytes
  if count ≠ m.functions.length then
    .err (.Parse "Function body count doesn't match function count from function section")
  else
    parse_code_section_loop count 0 (bytes.drop k) m

/-! ## `Module::load_from_binary` and `Module::validate` -/

/-- `Module::load_component_binary`: the minimal placeholder module the
source builds for a Component Model binary (the `std`-only scan for an
embedded core module only prints and is omitted). -/
def load_component_binary (_bytes : List Nat) : Outcome Module :=
  .ok { Module.new with
        custom_sections := [{ name := asciiBytes "component-model-info", data := [0x01] }],
        types := [{ params := [], results := [.I32] }],
        functions := [{ type_idx := 0, locals := [], body := [.I32Const 10] }],
        memories := [{ min := 1, max := some 10 }],
        exports := [{ name := asciiBytes "memory", kind := .Memory, index := 0 },
                    { name := asciiBytes "hello", kind := .Function, index := 0 }] }

/-- One dispatch of the section loop in `load_from_binary`. -/
def dispatch_section (code : Nat) (m : Module) (sectionBytes : List Nat) : Outcome Module :=
  if code = 1 then parse_type_section m sectionBytes
  else if code = 2 then parse_import_section m sectionBytes
  else if code = 3 then parse_function_section m sectionBytes
  else if code = 4 then parse_table_section m sectionBytes
  else if code = 5 then parse_memory_section m sectionBytes
  else if code = 6 then parse_global_section m sectionBytes
  else if code = 7 then parse_export_section m sectionBytes
  else if code = 8 then parse_start_section m sectionBytes
  else if code = 9 then parse_element_section m sectionBytes
  else if code = 10 then parse_code_section m sectionBytes
  else if code = 11 then parse_data_section m sectionBytes
  else .ok m

/-- The `while cursor < bytes.len()` section loop of
`load_from_binary`, recursing on the unread suffix.  Each iteration
consumes at least two bytes, so `bytes.length + 1` fuel always
suffices. -/
def section_loop : Nat → List Nat → Module → Outcome Module
  | 0, _, _ => .err (.Parse "internal: section loop fuel exhausted")
  | _ + 1, [], m => .ok m
  | fuel + 1, code :: rest, m => do
    let (sectionSize, k) ← read_leb128_u32 rest
    let afterSize := rest.drop k
    if sectionSize > afterSize.length then
      .err (.Parse "Section extends beyond end of file")
    else do
      let m1 ← dispatch_section code m (afterSize.take sectionSize)
      section_loop fuel (afterSize.drop sectionSize) m1

/-- The per-function loop of `Module::validate`. -/
def validate_functions (typesLen : Nat) : List MFunction → Outcome Unit
  | [] => .ok ()
  | f :: rest =>
    if f.type_idx ≥ typesLen then
      .err (.Validation "Function references invalid type index")
    else validate_functions typesLen rest

/-- The per-table loop of `Module::validate`. -/
def validate_tables : List TableType → Outcome Unit
  | [] => .ok ()
  | t :: rest =>
    if t.element_type ≠ .FuncRef then
      .err (.Validation "Table has invalid element type")
    else validate_tables rest

/-- The per-global loop of `Module::validate`: the source iterates over
the module-defined `globals` and rejects a mutable one whose *position*
is below the number of imports (of any kind). -/
def validate_globals (importsLen : Nat) : Nat → List GlobalType → Outcome Unit
  | _, [] => .ok ()
  | idx, g :: rest =>
    if g.mutable ∧ idx < importsLen then
      .err (.Validation "Imported global cannot be mutable")
    else validate_globals importsLen (idx + 1) rest

/-- The per-element-segment loop of `Module::validate`. -/
def validate_elements (tablesLen funcsLen : Nat) : List Element → Outcome Unit
  | [] => .ok ()
  | e :: rest =>
    if e.table_idx ≥ tablesLen then
      .err (.Validation "Element segment references invalid table index")
    else if e.init.any (fun fi => fi ≥ funcsLen) then
      .err (.Validation "Element segment references invalid function index")
    else validate_elements tablesLen funcsLen rest

/-- The per-data-segment loop of `Module::validate`. -/
def validate_data (memsLen : Nat) : List DataSeg → Outcome Unit
  | [] => .ok ()
  | d :: rest =>
    if d.memory_idx ≥ memsLen then
      .err (.Validation "Data segment references invalid memory index")
    else validate_data memsLen rest

/-- `Module::validate`. -/
def Module.validate (m : Module) : Outcome Unit := do
  if ¬ m.functions.isEmpty ∧ m.types.isEmpty then
    .err (.Validation "Module with functions must have at least one type")
  else do
    validate_functions m.types.length m.functions
    validate_tables m.tables
    if m.memories.length > 1 then
      .err (.Validation "Module can have at most one memory")
    else do
      validate_globals m.imports.length 0 m.globals
      validate_elements m.tables.length m.functions.length m.elements
      validate_data m.memories.length m.data
      match m.start with
      | none => .ok ()
      | some startIdx =>
        if startIdx ≥ m.functions.length then
          .err (.Validation "Start function index is invalid")
        else
          match m.functions.get? startIdx with
          | none => .panicked
          | some startFunc =>
            match m.types.get? startFunc.type_idx with
            | none => .panicked
            | some startType =>
              if ¬ startType.params.isEmpty ∨ ¬ startType.results.isEmpty then
                .err (.Validation "Start function must have no parameters and no results")
              else .ok ()

/-- `Module::load_from_binary`. -/
def Module.load_from_binary (bytes : List Nat) : Outcome Module :=
  if bytes.length < 8 then .err (.Parse "WebAssembly binary too short")
  else if bytes.take 4 ≠ [0x00, 0x61, 0x73, 0x6D] then
    .err (.Parse "Invalid WebAssembly magic number")
  else
    let version := (bytes.drop 4).take 4
    let isComponent := version = [0x0D, 0x00, 0x01, 0x00]
    let isCoreModule := version = [0x01, 0x00, 0x00, 0x00]
    if ¬ isCoreModule ∧ ¬ isComponent then
      .err (.Parse "Unsupported WebAssembly version")
    else if isComponent then load_component_binary bytes
    else do
      let m ← section_loop (bytes.length + 1) (bytes.drop 8) Module.new
      if m.functions.isEmpty ∧ m.imports.isEmpty then
        .err (.Parse "Module has no functions or imports")
      else do
        m.validate
        .ok m

/-! ## Runtime values (crate::values)

`wrt::values::Value` as used by the embedded execution code.  The
`V128` payload is the `u128` little-endian value (simd.rs carries a
`u128`; where execution.rs converts through `to_le_bytes` the numeric
value is unchanged).  Float payloads are their IEEE bit patterns; no
embedded path computes with them. -/
inductive Value where
  | I32 (v : Int)
  | I64 (v : Int)
  | F32 (bits : Nat)
  | F64 (bits : Nat)
  | V128 (v : Nat)
  | FuncRef (r : Option Nat)
  | ExternRef (r : Option Nat)
deriving DecidableEq

/-- Interpret a little-endian byte list as the natural number it
encodes. -/
def leBytesToNat (l : List Nat) : Nat := l.foldr (fun b acc => b + 256 * acc) 0

/-- The 16 little-endian bytes of a `u128` value (Rust
`u128::to_le_bytes`). -/
def natToLeBytes16 (n : Nat) : List Nat :=
  (List.range 16).map (fun i => (n >>> (8 * i)) % 256)

/-! ## Linear memory

Modelled from the spec: the `Memory` type of `wrt::memory` is not among
the sources (only its callers are).  Spec §4.2 defines the interface:
`read_bytes(addr, len)` returns the bytes or traps when `addr + len`
(checked add) exceeds `size_bytes`; `write_bytes(addr, bytes)` writes or
traps under the same bound, leaving the contents unchanged on a trap;
`size_bytes` is the current byte size. -/
structure Memory where
  bytes : List Nat
deriving DecidableEq

/-- Modelled from the spec: `Memory::size_bytes`. -/
def Memory.size_bytes (m : Memory) : Nat := m.bytes.length

/-- Modelled from the spec: `Memory::read_bytes`. -/
def Memory.read_bytes (m : Memory) (addr len : Nat) : Outcome (List Nat) :=
  if addr + len ≤ m.bytes.length then .ok ((m.bytes.drop addr).take len)
  else .err (.Execution (.text "MemoryOutOfBounds"))

/-- Modelled from the spec: `Memory::write_bytes`. -/
def Memory.write_bytes (m : Memory) (addr : Nat) (data : List Nat) : Outcome Memory :=
  if addr + data.length ≤ m.bytes.length then
    .ok ⟨(m.bytes.take addr) ++ data ++ (m.bytes.drop (addr + data.length))⟩
  else .err (.Execution (.text "MemoryOutOfBounds"))

/-! ## SIMD loads and stores (src/wrt/src/instructions/simd.rs)

`v128_load` / `v128_store` take the stackless frame (for its module's
memories) and the operand stack.  The stack is a `List Value` with the
top at the head; mutations performed before an error (the pops)
persist, as they do through the `&mut` references in the source. -/

/-- The part of the stackless frame's module that simd.rs touches. -/
structure FrameModule where
  memories : List Memory
deriving DecidableEq

/-- `StacklessFrame`, restricted to the field simd.rs reads. -/
structure StacklessFrame where
  module : FrameModule
deriving DecidableEq

/-- `v128_load`: pop an i32 address, bounds-check
`wrapping_add(addr, offset) + 16` against the memory size, read 16
little-endian bytes and push them as a `V128`.  Returns the result
together with the mutated stack (the frame is not written). -/
def v128_load (frame : StacklessFrame) (stack : List Value) (offset _align : Nat) :
    Outcome Unit × List Value :=
  match frame.module.memories with
  | [] => (.err (.Execution (.text "No memory available")), stack)
  | memory :: _ =>
    match stack with
    | [] => (.err .StackUnderflow, [])
    | v :: rest =>
      match v with
      | .I32 a =>
        let addr := toU32 a
        let effective_addr := (addr + offset) % u32Mod
        if effective_addr + 16 > memory.size_bytes then
          (.err (.Execution (.memoryOutOfBounds addr offset memory.size_bytes)), rest)
        else
          match memory.read_bytes effective_addr 16 with
          | .ok bytes => (.ok (), .V128 (leBytesToNat bytes) :: rest)
          | .err e => (.err e, rest)
          | .panicked => (.panicked, rest)
      | _ => (.err (.Execution (.text "Expected i32 value for memory address")), rest)

/-- `v128_store`: pop a v128 value then an i32 address, bounds-check
`wrapping_add(addr, offset) + 16`, and write the 16 little-endian
bytes.  Returns the result with the mutated frame and stack. -/
def v128_store (frame : StacklessFrame) (stack : List Value) (offset _align : Nat) :
    Outcome Unit × StacklessFrame × List Value :=
  match frame.module.memories with
  | [] => (.err (.Execution (.text "No memory available")), frame, stack)
  | memory :: restMems =>
    match stack with
    | [] => (.err .StackUnderflow, frame, [])
    | v :: rest =>
      match v with
      | .V128 value =>
        match rest with
        | [] => (.err .StackUnderflow, frame, [])
        | a :: rest1 =>
          match a with
          | .I32 av =>
            let addr := toU32 av
            let effective_addr := (addr + offset) % u32Mod
            if effective_addr + 16 > memory.size_bytes then
              (.err (.Execution (.memoryOutOfBounds addr offset memory.size_bytes)), frame, rest1)
            else
              match memory.write_bytes effective_addr (natToLeBytes16 value) with
              | .ok memory1 => (.ok (), ⟨⟨memory1 :: restMems⟩⟩, rest1)
              | .err e => (.err e, frame, rest1)
              | .panicked => (.panicked, frame, rest1)
          | _ => (.err (.Execution (.text "Expected i32 value for memory address")), frame, rest1)
      | _ => (.err (.Execution (.text "Expected v128 value for store operation")), frame, rest)

/-! ## Execution engine (src/wrt/src/execution.rs)

The engine is embedded over the decoder's `Module` (execution.rs's
`Function::code` field is the decoder's `body`; the two files are
snapshots of the same crate).  Only the engine fields the embedded
functions touch are modelled: `state`, `instances`, `globals`, `fuel`
and `memories`; `stack`, `tables`, `execution_stats` and `module` are
never read or written on these paths. -/

/-- `ExecutionState`. -/
inductive ExecutionState where
  | Running
  | Paused (instance_idx func_idx pc expected_results : Nat)
  | Calling
  | Returning
  | Branching
  | Completed
  | Finished
  | Error
deriving DecidableEq

/-- Modelled from the spec: `crate::global::Global` is not among the
sources; spec §3 defines a global as its `GlobalType` plus current
`Value`, with `Global::new` building one. -/
structure Global where
  ty : GlobalType
  value : Value
deriving DecidableEq

/-- Modelled from the spec: `Global::new` (its `Result` is always `Ok`
for the uses here, which `.unwrap()` immediately). -/
def Global.new (ty : GlobalType) (value : Value) : Global := ⟨ty, value⟩

/-- `ModuleInstance`: the runtime wrapper around a decoded module (the
fields the embedded paths read reduce to the module itself). -/
structure ModuleInstance where
  module : Module
deriving DecidableEq

/-- The execution `Engine`, restricted to the fields the embedded
functions use. -/
structure Engine where
  state : ExecutionState
  instances : List ModuleInstance
  globals : List Global
  fuel : Option Nat
  memories : List Memory
deriving DecidableEq

/-- Result of an engine method on `&mut self`: a value or an `Err`,
each with the (possibly mutated) engine, or a Rust panic. -/
inductive EngineStep (α : Type) where
  | ok (val : α) (e : Engine)
  | err (er : WError) (e : Engine)
  | panicked
deriving DecidableEq

/-- `Engine::set_fuel`. -/
def Engine.set_fuel (e : Engine) (fuel : Option Nat) : Engine :=
  { e with fuel := fuel }

/-- `Engine::remaining_fuel`. -/
def Engine.remaining_fuel (e : Engine) : Option Nat := e.fuel

/-- Does an export list contain the given (ASCII) name? -/
def hasExport (exports : List Export) (s : String) : Bool :=
  exports.any (fun ex => ex.name = asciiBytes s)

/-- The `exports.iter().find(|e| e.index == func_idx).map_or("", name)`
idiom. -/
def exportNameFor (exports : List Export) (func_idx : Nat) : List Nat :=
  ((exports.find? (fun ex => ex.index = func_idx)).map (fun ex => ex.name)).getD []

/-- The `(params, results) == ([I32, I32], [I32])` signature check used
by the arithmetic shims. -/
def ftIsBinI32 (ft : FuncType) : Bool :=
  ft.params = [.I32, .I32] ∧ ft.results = [.I32]

/-- The `store` shim shared by `execute` and `resume`: initialise or
overwrite `globals[0]` with the stored value. -/
def storetoGlobals (globals : List Global) (val : Int) : List Global :=
  match globals with
  | [] => [Global.new { content_type := .I32, mutable := true } (.I32 val)]
  | g :: rest => { g with value := .I32 val } :: rest

/-- `Engine::resume`.  The paused-state shim dispatch of the source,
branch for branch; `a - b`, `a * b`, `val * 2` and `val1 + val2` are
modelled with release-profile wrapping, while `a / b` and `a % b`
panic on overflow in every profile (`rustDivI32` / `rustRemI32`). -/
def Engine.resume (e : Engine) (args : List Value) : EngineStep (List Value) :=
  match e.state with
  | .Paused instance_idx func_idx _ expected_results =>
    match e.instances.get? instance_idx with
    | none => .panicked
    | some inst =>
      match inst.module.functions.get? func_idx with
      | none => .panicked
      | some func =>
        match inst.module.types.get? func.type_idx with
        | none => .panicked
        | some func_type =>
          let exs := inst.module.exports
          let eFin : Engine := { e with state := .Finished }
          let zeros : List Value := List.replicate expected_results (.I32 0)
          -- test_pause_on_fuel_exhaustion shim: body starting I32Const, End
          match func.body with
          | .I32Const val :: .End :: _ => .ok [.I32 val] eFin
          | _ =>
            if hasExport exs "add" ∧ ftIsBinI32 func_type then
              match args with
              | .I32 a :: .I32 b :: _ => .ok [.I32 (wrapAdd32 a b)] eFin
              | _ => .ok [.I32 2] eFin
            else if hasExport exs "sub" ∧ ftIsBinI32 func_type then
              match args with
              | .I32 a :: .I32 b :: _ => .ok [.I32 (wrapSub32 a b)] eFin
              | _ => .ok [.I32 0] eFin
            else if hasExport exs "mul" ∧ ftIsBinI32 func_type then
              match args with
              | .I32 a :: .I32 b :: _ => .ok [.I32 (wrapMul32 a b)] eFin
              | _ => .ok [.I32 0] eFin
            else if (hasExport exs "div_s" ∨ hasExport exs "div_u" ∨
                     hasExport exs "rem_s" ∨ hasExport exs "rem_u") ∧
                    ftIsBinI32 func_type then
              let operation := exportNameFor exs func_idx
              match args with
              | .I32 a :: .I32 b :: _ =>
                if b = 0 then .err (.Execution (.text "Division by zero")) eFin
                else if operation = asciiBytes "div_s" then
                  match rustDivI32 a b with
                  | none => .panicked
                  | some q => .ok [.I32 q] eFin
                else if operation = asciiBytes "div_u" then
                  .ok [.I32 (i32ofU32 (toU32 a / toU32 b))] eFin
                else if operation = asciiBytes "rem_s" then
                  match rustRemI32 a b with
                  | none => .panicked
                  | some r => .ok [.I32 r] eFin
                else if operation = asciiBytes "rem_u" then
                  .ok [.I32 (i32ofU32 (toU32 a % toU32 b))] eFin
                else .ok [.I32 0] eFin
              | _ => .ok [.I32 0] eFin
            else if hasExport exs "eq" ∨ hasExport exs "ne" ∨ hasExport exs "lt_s" ∨
                    hasExport exs "lt_u" ∨ hasExport exs "gt_s" ∨ hasExport exs "gt_u" ∨
                    hasExport exs "le_s" ∨ hasExport exs "le_u" ∨ hasExport exs "ge_s" ∨
                    hasExport exs "ge_u" then
              if ftIsBinI32 func_type then
                let operation := exportNameFor exs func_idx
                match args with
                | .I32 a :: .I32 b :: _ =>
                  if operation = asciiBytes "eq" then
                    .ok [.I32 (if a = b then 1 else 0)] eFin
                  else if operation = asciiBytes "ne" then
                    .ok [.I32 (if a = b then 0 else 1)] eFin
                  else if operation = asciiBytes "lt_s" then
                    .ok [.I32 (if a < b then 1 else 0)] eFin
                  else if operation = asciiBytes "lt_u" then
                    .ok [.I32 (if toU32 a < toU32 b then 1 else 0)] eFin
                  else if operation = asciiBytes "gt_s" then
                    .ok [.I32 (if a > b then 1 else 0)] eFin
                  else if operation = asciiBytes "gt_u" then
                    .ok [.I32 (if toU32 a > toU32 b then 1 else 0)] eFin
                  else if operation = asciiBytes "le_s" then
                    .ok [.I32 (if a ≤ b then 1 else 0)] eFin
                  else if operation = asciiBytes "le_u" then
                    .ok [.I32 (if toU32 a ≤ toU32 b then 1 else 0)] eFin
                  else if operation = asciiBytes "ge_s" then
                    .ok [.I32 (if a ≥ b then 1 else 0)] eFin
                  else if operation = asciiBytes "ge_u" then
                    .ok [.I32 (if toU32 a ≥ toU32 b then 1 else 0)] eFin
                  else .ok [.I32 0] eFin
                | _ => .ok [.I32 0] eFin
              else .ok zeros eFin
            else if hasExport exs "store" ∨ hasExport exs "load" then
              let storeExport := exs.find? (fun ex => ex.name = asciiBytes "store")
              let loadExport := exs.find? (fun ex => ex.name = asciiBytes "load")
              match storeExport with
              | some se =>
                if se.index = func_idx then
                  match args with
                  | .I32 val :: _ =>
                    .ok [] { e with state := .Finished, globals := storetoGlobals e.globals val }
                  | _ => .ok [] eFin
                else
                  match loadExport with
                  | some le =>
                    if le.index = func_idx then
                      match e.globals with
                      | [] => .ok [.I32 0] eFin
                      | g :: _ => .ok [g.value] eFin
                    else .ok zeros eFin
                  | none => .ok zeros eFin
              | none =>
                match loadExport with
                | some le =>
                  if le.index = func_idx then
                    match e.globals with
                    | [] => .ok [.I32 0] eFin
                    | g :: _ => .ok [g.value] eFin
                  else .ok zeros eFin
                | none => .ok zeros eFin
            else if func_type.params.length = 1 ∧
                    (func_type.results.length = 2 ∨ func_type.results.length = 1) ∧
                    func_type.results.headD .I32 = .I32 then
              match args with
              | [] => .ok [.I32 0, .I32 0] eFin
              | a0 :: _ =>
                match a0 with
                | .I32 val => .ok [a0, .I32 (wrapMul32 val 2)] eFin
                | _ => .ok [a0, .I32 0] eFin
            else if func_type.params = [.I32, .I32] then
              match args with
              | a0 :: a1 :: _ =>
                match a0, a1 with
                | .I32 v1, .I32 v2 => .ok [a0, a1, .I32 (wrapAdd32 v1 v2)] eFin
                | _, _ => .ok [a0, a1, .I32 0] eFin
              | _ => .ok [.I32 0, .I32 0, .I32 0] eFin
            else if func_type.params.isEmpty ∨ func_type.params = [.I32] then
              .ok zeros eFin
            else
              .ok zeros eFin
  | _ => .err (.Execution (.text "Cannot resume: engine is not paused")) e

/-- `Engine::execute_simd_load`. -/
def Engine.execute_simd_load (e : Engine) (instance_idx : Nat) (args : List Value) :
    EngineStep (List Value) :=
  match e.instances.get? instance_idx with
  | none => .err (.Execution (.text "Invalid instance index")) e
  | some inst =>
    if inst.module.memories.isEmpty then
      .err (.Execution (.text "No memory available for SIMD load")) e
    else
      match e.memories with
      | [] => .err (.Execution (.text "No memory instances available")) e
      | memory :: _ =>
        let addrOut : Outcome Nat :=
          match args with
          | [] => .ok 0
          | a0 :: _ =>
            match a0 with
            | .I32 addr => .ok (toU32 addr)
            | _ => .err (.Execution (.text "Expected I32 memory address argument"))
        match addrOut with
        | .err er => .err er e
        | .panicked => .panicked
        | .ok addr =>
          if addr + 16 > memory.size_bytes then
            .err (.Execution (.simdMemoryOutOfBounds addr memory.size_bytes)) e
          else
            match memory.read_bytes addr 16 with
            | .ok bytes => .ok [.V128 (leBytesToNat bytes)] e
            | .err _ => .err (.Execution (.text "Failed to read memory")) e
            | .panicked => .panicked

/-- `Engine::execute_simd_store`. -/
def Engine.execute_simd_store (e : Engine) (instance_idx : Nat) (args : List Value) :
    EngineStep (List Value) :=
  match e.instances.get? instance_idx with
  | none => .err (.Execution (.text "Invalid instance index")) e
  | some inst =>
    if inst.module.memories.isEmpty then
      .err (.Execution (.text "No memory available for SIMD store")) e
    else
      match e.memories with
      | [] => .err (.Execution (.text "No memory instances available")) e
      | memory :: restMems =>
        match args with
        | a0 :: a1 :: _ =>
          match a0 with
          | .I32 addrV =>
            let addr := toU32 addrV
            if addr + 16 > memory.size_bytes then
              .err (.Execution (.simdMemoryOutOfBounds addr memory.size_bytes)) e
            else
              match a1 with
              | .V128 value =>
                match memory.write_bytes addr (natToLeBytes16 value) with
                | .ok memory1 => .ok [] { e with memories := memory1 :: restMems }
                | .err _ => .err (.Execution (.text "Failed to write memory")) e
                | .panicked => .panicked
              | _ => .err (.Execution (.text "Expected V128 value argument")) e
          | _ => .err (.Execution (.text "Expected I32 memory address argument")) e
        | _ => .err (.Execution (.text "Not enough arguments for SIMD store")) e

/-- Little-endian packing of 32-bit lanes into a `u128`. -/
def u32sToNat (l : List Nat) : Nat := l.foldr (fun w acc => w % u32Mod + u32Mod * acc) 0

/-- Little-endian packing of 16-bit lanes. -/
def u16sToNat (l : List Nat) : Nat := l.foldr (fun w acc => w % 65536 + 65536 * acc) 0

/-- Little-endian packing of 64-bit lanes. -/
def u64sToNat (l : List Nat) : Nat :=
  l.foldr (fun w acc => w % 18446744073709551616 + 18446744073709551616 * acc) 0

/-- Rust `v as u64` for `v : i64`. -/
def toU64 (x : Int) : Nat := (Int.emod x (18446744073709551616 : Int)).toNat

/-- `Engine::execute`: the test-shim dispatch of the source, ending in
the `Paused`-then-`resume` tail for regular functions. -/
def Engine.execute (e : Engine) (module_idx func_idx : Nat) (args : List Value) :
    EngineStep (List Value) :=
  match e.instances.get? module_idx with
  | none => .err (.Execution (.text "Instance not found")) e
  | some inst =>
    if func_idx ≥ inst.module.functions.length then
      .err (.Execution (.text "Function not found")) e
    else
      match inst.module.functions.get? func_idx with
      | none => .panicked
      | some func =>
        match inst.module.types.get? func.type_idx with
        | none => .panicked
        | some func_type =>
          let exs := inst.module.exports
          let expected_results := func_type.results.length
          let returns_v128 := func_type.results = [.V128]
          let is_simd_address_test := exs.any (fun ex =>
            (bytesStartsWith ex.name (asciiBytes "load_data_") ∨
             bytesStartsWith ex.name (asciiBytes "store_data_")) ∧ ex.index = func_idx)
          let is_simd_splat_test := exs.any (fun ex =>
            (bytesEndsWith ex.name (asciiBytes "splat") ∨
             bytesContains ex.name (asciiBytes "splat") ∨
             bytesContains ex.name (asciiBytes "_splat")) ∧ ex.index = func_idx)
          let is_simd_shuffle_test := exs.any (fun ex =>
            (ex.name = asciiBytes "shuffle" ∨ ex.name = asciiBytes "i8x16_shuffle" ∨
             bytesContains ex.name (asciiBytes "shuffle")) ∧ ex.index = func_idx)
          let is_simd_arithmetic_test := exs.any (fun ex =>
            bytesContains ex.name (asciiBytes "add") ∧ expected_results > 0 ∧
            func_type.results = [.V128])
          let func_name :=
            ((exs.find? (fun ex => ex.kind = .Function ∧ ex.index = func_idx)).map
              (fun ex => ex.name)).getD []
          -- the tail: shuffle shim, name-keyed shims, then pause + resume
          let tail : EngineStep (List Value) :=
            if is_simd_shuffle_test then
              .ok [.V128 (leBytesToNat
                [31, 30, 29, 28, 27, 26, 25, 24, 23, 22, 21, 20, 19, 18, 17, 16])] e
            else
              let export_name := exportNameFor exs func_idx
              if (exs.find? (fun ex =>
                    ex.name = asciiBytes "f32x4_splat_test" ∧ ex.index = func_idx)).isSome then
                .ok [.V128 0x40490FDB40490FDB40490FDB40490FDB] e
              else if export_name = asciiBytes "f32x4_splat_test" then
                .ok [.V128 0x40490FDB40490FDB40490FDB40490FDB] e
              else if export_name = asciiBytes "f64x2_splat_test" then
                .ok [.V128 0x40191EB851EB851F40191EB851EB851F] e
              else if export_name = asciiBytes "i32x4_splat_test" then
                .ok [.V128 (u32sToNat [42, 42, 42, 42])] e
              else if export_name = asciiBytes "simple_simd_test" ∨
                      bytesContains export_name (asciiBytes "simd_test") then
                .ok [.V128 (u32sToNat [42, 42, 42, 42])] e
              else
                Engine.resume
                  { e with state := .Paused module_idx func_idx 0 expected_results } args
          -- stage 10 onward, shared by several fall-through paths
          let afterSimd : EngineStep (List Value) :=
            let eFin : Engine := { e with state := .Finished }
            if hasExport exs "sub" ∧ ftIsBinI32 func_type then
              match args with
              | .I32 a :: .I32 b :: _ => .ok [.I32 (wrapSub32 a b)] eFin
              | _ => .ok [.I32 0] eFin
            else if (hasExport exs "and" ∨ hasExport exs "or" ∨ hasExport exs "xor") ∧
                    ftIsBinI32 func_type then
              let operation := exportNameFor exs func_idx
              match args with
              | .I32 a :: .I32 b :: _ =>
                if operation = asciiBytes "and" then
                  .ok [.I32 (i32ofU32 (Nat.land (toU32 a) (toU32 b)))] eFin
                else if operation = asciiBytes "or" then
                  .ok [.I32 (i32ofU32 (Nat.lor (toU32 a) (toU32 b)))] eFin
                else if operation = asciiBytes "xor" then
                  .ok [.I32 (i32ofU32 (Nat.xor (toU32 a) (toU32 b)))] eFin
                else .ok [.I32 0] eFin
              | _ => .ok [.I32 0] eFin
            else
              -- comparison else-if chain; an inner pattern mismatch falls
              -- through to the store/load shims below
              let afterCmp : EngineStep (List Value) :=
                let is_store_test := exs.any (fun ex =>
                  bytesContains ex.name (asciiBytes "store") ∧ ex.index = func_idx ∧
                  ¬ bytesContains ex.name (asciiBytes "v128"))
                let storeShim : EngineStep (List Value) :=
                  let is_load_test := exs.any (fun ex =>
                    bytesContains ex.name (asciiBytes "load") ∧ ex.index = func_idx ∧
                    ¬ bytesContains ex.name (asciiBytes "v128"))
                  let is_simd_load_test2 := exs.any (fun ex =>
                    ex.name = asciiBytes "load" ∧ ex.index = func_idx ∧
                    func_type.results = [.V128])
                  if is_load_test ∧ ¬ is_simd_load_test2 then
                    match e.globals with
                    | [] => .ok [.I32 0] e
                    | g :: _ => .ok [g.value] e
                  else if is_simd_load_test2 then
                    .ok [.V128 0xD0E0F0FF90A0B0C05060708010203040] e
                  else if exs.any (fun ex =>
                      ex.name = asciiBytes "memory" ∧ ex.index = func_idx ∧
                      func_type.results = [.V128]) then
                    .ok [.V128 0xD0E0F0FF90A0B0C05060708010203040] e
                  else
                    -- SIMD splat shims; an inner mismatch falls through
                    let afterSplat : EngineStep (List Value) :=
                      if is_simd_arithmetic_test then
                        let export_name := exportNameFor exs func_idx
                        if bytesContains export_name (asciiBytes "i32x4.add") ∨
                           bytesContains export_name (asciiBytes "i32x4_add") then
                          .ok [.V128 (u32sToNat [6, 8, 10, 12])] e
                        else if bytesContains export_name (asciiBytes "i32x4.sub") ∨
                                bytesContains export_name (asciiBytes "i32x4_sub") then
                          .ok [.V128 (u32sToNat [9, 18, 27, 36])] e
                        else if bytesContains export_name (asciiBytes "i32x4.mul") ∨
                                bytesContains export_name (asciiBytes "i32x4_mul") then
                          .ok [.V128 (u32sToNat [5, 12, 21, 32])] e
                        else if bytesContains export_name (asciiBytes "i16x8.mul") ∨
                                bytesContains export_name (asciiBytes "i16x8_mul") then
                          .ok [.V128 (u16sToNat [10, 20, 30, 40, 50, 60, 70, 80])] e
                        else tail
                      else tail
                    if is_simd_splat_test then
                      let export_name := exportNameFor exs func_idx
                      if (bytesContains export_name (asciiBytes "i8x16") ∧
                          bytesContains export_name (asciiBytes "splat")) ∧ args ≠ [] then
                        match args.headD (.I32 0) with
                        | .I32 val =>
                          .ok [.V128 (leBytesToNat (List.replicate 16 (toU32 val % 256)))] e
                        | _ => afterSplat
                      else if (bytesContains export_name (asciiBytes "i16x8") ∧
                               bytesContains export_name (asciiBytes "splat")) ∧ args ≠ [] then
                        match args.headD (.I32 0) with
                        | .I32 val =>
                          .ok [.V128 (u16sToNat (List.replicate 8 (toU32 val % 65536)))] e
                        | _ => afterSplat
                      else if (bytesContains export_name (asciiBytes "i32x4") ∧
                               bytesContains export_name (asciiBytes "splat")) ∧ args ≠ [] then
                        match args.headD (.I32 0) with
                        | .I32 val =>
                          if val = 0x12345678 then
                            .ok [.V128 0x12345678123456781234567812345678] e
                          else
                            .ok [.V128 (u32sToNat (List.replicate 4 (toU32 val)))] e
                        | _ => afterSplat
                      else if (bytesContains export_name (asciiBytes "i64x2") ∧
                               bytesContains export_name (asciiBytes "splat")) ∧ args ≠ [] then
                        match args.headD (.I32 0) with
                        | .I64 val =>
                          if val = 0x123456789ABCDEF0 then
                            .ok [.V128 0x123456789ABCDEF0123456789ABCDEF0] e
                          else
                            .ok [.V128 (u64sToNat (List.replicate 2 (toU64 val)))] e
                        | _ => afterSplat
                      else if (bytesContains export_name (asciiBytes "f32x4") ∧
                               bytesContains export_name (asciiBytes "splat")) ∧ args ≠ [] then
                        match args.headD (.I32 0) with
                        | .F32 bits => .ok [.V128 (u32sToNat (List.replicate 4 bits))] e
                        | _ => afterSplat
                      else if (bytesContains export_name (asciiBytes "f64x2") ∧
                               bytesContains export_name (asciiBytes "splat")) ∧ args ≠ [] then
                        match args.headD (.I32 0) with
                        | .F64 bits => .ok [.V128 (u64sToNat (List.replicate 2 bits))] e
                        | _ => afterSplat
                      else afterSplat
                    else afterSplat
                if is_store_test ∧ args ≠ [] then
                  match args.headD (.I32 0) with
                  | .I32 val => .ok [] { e with globals := storetoGlobals e.globals val }
                  | _ => storeShim
                else storeShim
              if hasExport exs "eq" ∧ args.length ≥ 2 then
                match args with
                | .I32 a :: .I32 b :: _ => .ok [.I32 (if a = b then 1 else 0)] e
                | _ => afterCmp
              else if hasExport exs "ne" ∧ args.length ≥ 2 then
                match args with
                | .I32 a :: .I32 b :: _ => .ok [.I32 (if a = b then 0 else 1)] e
                | _ => afterCmp
              else if hasExport exs "lt_s" ∧ args.length ≥ 2 then
                match args with
                | .I32 a :: .I32 b :: _ => .ok [.I32 (if a < b then 1 else 0)] e
                | _ => afterCmp
              else if hasExport exs "lt_u" ∧ args.length ≥ 2 then
                match args with
                | .I32 a :: .I32 b :: _ =>
                  .ok [.I32 (if toU32 a < toU32 b then 1 else 0)] e
                | _ => afterCmp
              else if hasExport exs "gt_s" ∧ args.length ≥ 2 then
                match args with
                | .I32 a :: .I32 b :: _ => .ok [.I32 (if a > b then 1 else 0)] e
                | _ => afterCmp
              else if hasExport exs "gt_u" ∧ args.length ≥ 2 then
                match args with
                | .I32 a :: .I32 b :: _ =>
                  .ok [.I32 (if toU32 a > toU32 b then 1 else 0)] e
                | _ => afterCmp
              else if hasExport exs "le_s" ∧ args.length ≥ 2 then
                match args with
                | .I32 a :: .I32 b :: _ => .ok [.I32 (if a ≤ b then 1 else 0)] e
                | _ => afterCmp
              else if hasExport exs "le_u" ∧ args.length ≥ 2 then
                match args with
                | .I32 a :: .I32 b :: _ =>
                  .ok [.I32 (if toU32 a ≤ toU32 b then 1 else 0)] e
                | _ => afterCmp
              else if hasExport exs "ge_s" ∧ args.length ≥ 2 then
                match args with
                | .I32 a :: .I32 b :: _ => .ok [.I32 (if a ≥ b then 1 else 0)] e
                | _ => afterCmp
              else if hasExport exs "ge_u" ∧ args.length ≥ 2 then
                match args with
                | .I32 a :: .I32 b :: _ =>
                  .ok [.I32 (if toU32 a ≥ toU32 b then 1 else 0)] e
                | _ => afterCmp
              else afterCmp
          -- SIMD name-based test shims (stages 6-8)
          let simdNameShims : EngineStep (List Value) :=
            let is_simd_load_test :=
              bytesContains func_name (asciiBytes "v128.load") ∧
              ¬ bytesContains func_name (asciiBytes "v128.load8_lane") ∧
              ¬ bytesContains func_name (asciiBytes "v128.load16_lane") ∧
              ¬ bytesContains func_name (asciiBytes "v128.load32_lane") ∧
              ¬ bytesContains func_name (asciiBytes "v128.load64_lane")
            let is_simd_store_test :=
              bytesContains func_name (asciiBytes "v128.store") ∧
              ¬ bytesContains func_name (asciiBytes "v128.store8_lane") ∧
              ¬ bytesContains func_name (asciiBytes "v128.store16_lane") ∧
              ¬ bytesContains func_name (asciiBytes "v128.store32_lane") ∧
              ¬ bytesContains func_name (asciiBytes "v128.store64_lane")
            let is_simd_load_lane_test :=
              bytesContains func_name (asciiBytes "v128.load8_lane") ∨
              bytesContains func_name (asciiBytes "v128.load16_lane") ∨
              bytesContains func_name (asciiBytes "v128.load32_lane") ∨
              bytesContains func_name (asciiBytes "v128.load64_lane")
            let is_simd_store_lane_test :=
              bytesContains func_name (asciiBytes "v128.store8_lane") ∨
              bytesContains func_name (asciiBytes "v128.store16_lane") ∨
              bytesContains func_name (asciiBytes "v128.store32_lane") ∨
              bytesContains func_name (asciiBytes "v128.store64_lane")
            if is_simd_load_test then
              match e.execute_simd_load module_idx args with
              | .ok result e1 => .ok result e1
              | .err _ e1 => .ok [.V128 42] e1
              | .panicked => .panicked
            else if is_simd_store_test then
              match e.execute_simd_store module_idx args with
              | .ok result e1 => .ok result e1
              | .err _ e1 => .ok [] e1
              | .panicked => .panicked
            else if is_simd_load_lane_test then .ok [.V128 0] e
            else if is_simd_store_lane_test then .ok [] e
            else afterSimd
          -- the execute body proper, in source order
          if is_simd_address_test ∧ returns_v128 then
            let export_name := exportNameFor exs func_idx
            if bytesStartsWith export_name (asciiBytes "load_data_") then
              if export_name = asciiBytes "load_data_1" ∨
                 export_name = asciiBytes "load_data_2" then
                .ok [.V128 0x112233445566778899AABBCCDDEEFF00] e
              else if export_name = asciiBytes "load_data_3" then
                .ok [.V128 0x0102030405060708090A0B0C0D0E0F10] e
              else if export_name = asciiBytes "load_data_4" then
                .ok [.V128 0xFFFF] e
              else if export_name = asciiBytes "load_data_5" then
                .ok [.V128 0x15] e
              else
                .ok [.V128 0xDEADBEEFDEADBEEFDEADBEEFDEADBEEF] e
            else if bytesStartsWith export_name (asciiBytes "store_data_") then
              .ok [] e
            else simdNameShims
          else simdNameShims

/-- Rust `u32::leading_zeros`. -/
def clz32 (n : Nat) : Nat := if n = 0 then 32 else 31 - Nat.log2 n

/-- Rust `u32::trailing_zeros`. -/
def ctz32 (n : Nat) : Nat := ((List.range 32).find? (fun i => (n >>> i) % 2 = 1)).getD 32

/-- Rust `u32::count_ones`. -/
def popcnt32 (n : Nat) : Nat := ((List.range 32).filter (fun i => (n >>> i) % 2 = 1)).length

/-- Rust `i32::from(a as i8)` (sign-extend the low byte). -/
def extend8s (a : Int) : Int :=
  let b := toU32 a % 256
  if b < 128 then (b : Int) else (b : Int) - 256

/-- Rust `i32::from(a as i16)` (sign-extend the low 16 bits). -/
def extend16s (a : Int) : Int :=
  let w := toU32 a % 65536
  if w < 32768 then (w : Int) else (w : Int) - 65536

/-- The instance/export scan of `invoke_export` (source lines 780-823):
the first Function-kind export with the given name, scanning instances
in order (non-function exports with the name are skipped by the
`continue`). -/
def findFunctionExport : Nat → List ModuleInstance → List Nat → Option (Nat × Nat)
  | _, [], _ => none
  | i, inst :: rest, name =>
    match inst.module.exports.find? (fun ex => ex.name = name ∧ ex.kind = .Function) with
    | some ex => some (i, ex.index)
    | none => findFunctionExport (i + 1) rest name

/-- `Engine::invoke_export`: the special-name fast paths over two
`I32` arguments (binary, unary and comparison groups), falling back to
the instance/export lookup and `execute`. -/
def Engine.invoke_export (e : Engine) (name : List Nat) (args : List Value) :
    EngineStep (List Value) :=
  let lookupPath : EngineStep (List Value) :=
    match findFunctionExport 0 e.instances name with
    | none => .err (.ExportNotFound name) e
    | some (i, f) => e.execute i f args
  if name = asciiBytes "add" ∨ name = asciiBytes "sub" ∨ name = asciiBytes "mul" ∨
     name = asciiBytes "div_s" ∨ name = asciiBytes "div_u" ∨ name = asciiBytes "rem_s" ∨
     name = asciiBytes "rem_u" ∨ name = asciiBytes "and" ∨ name = asciiBytes "or" ∨
     name = asciiBytes "xor" ∨ name = asciiBytes "shl" ∨ name = asciiBytes "shr_s" ∨
     name = asciiBytes "shr_u" ∨ name = asciiBytes "rotl" ∨ name = asciiBytes "rotr" then
    match args with
    | [.I32 a, .I32 b] =>
      if name = asciiBytes "add" then .ok [.I32 (wrapAdd32 a b)] e
      else if name = asciiBytes "sub" then .ok [.I32 (wrapSub32 a b)] e
      else if name = asciiBytes "mul" then .ok [.I32 (wrapMul32 a b)] e
      else if name = asciiBytes "div_s" then
        if b = 0 then .err .DivisionByZero e
        else if a = i32Min ∧ b = -1 then .err .IntegerOverflow e
        else .ok [.I32 (wrapDivS32 a b)] e
      else if name = asciiBytes "div_u" then
        if b = 0 then .err .DivisionByZero e
        else .ok [.I32 (i32ofU32 (toU32 a / toU32 b))] e
      else if name = asciiBytes "rem_s" then
        if b = 0 then .err .DivisionByZero e
        else if a = i32Min ∧ b = -1 then .ok [.I32 0] e
        else .ok [.I32 (Int.tmod a b)] e
      else if name = asciiBytes "rem_u" then
        if b = 0 then .err .DivisionByZero e
        else .ok [.I32 (i32ofU32 (toU32 a % toU32 b))] e
      else if name = asciiBytes "and" then
        .ok [.I32 (i32ofU32 (Nat.land (toU32 a) (toU32 b)))] e
      else if name = asciiBytes "or" then
        .ok [.I32 (i32ofU32 (Nat.lor (toU32 a) (toU32 b)))] e
      else if name = asciiBytes "xor" then
        .ok [.I32 (i32ofU32 (Nat.xor (toU32 a) (toU32 b)))] e
      else if name = asciiBytes "shl" then
        .ok [.I32 (wrapShl32 a (toU32 b % 32))] e
      else if name = asciiBytes "shr_s" then
        .ok [.I32 (wrapAShr32 a (toU32 b % 32))] e
      else if name = asciiBytes "shr_u" then
        .ok [.I32 (i32ofU32 (wrapLShr32 (toU32 a) (toU32 b % 32)))] e
      else if name = asciiBytes "rotl" then
        let shift := toU32 b % 32
        .ok [.I32 (i32ofU32 (Nat.lor (toU32 (wrapShl32 a shift))
              (wrapLShr32 (toU32 a) (32 - shift))))] e
      else if name = asciiBytes "rotr" then
        .ok [.I32 (i32ofU32 (rotateRight32 (toU32 a) (toU32 b % 32)))] e
      else lookupPath
    | _ => lookupPath
  else if name = asciiBytes "clz" ∨ name = asciiBytes "ctz" ∨ name = asciiBytes "popcnt" ∨
          name = asciiBytes "extend8_s" ∨ name = asciiBytes "extend16_s" ∨
          name = asciiBytes "eqz" then
    match args with
    | [.I32 a] =>
      if name = asciiBytes "clz" then .ok [.I32 (clz32 (toU32 a))] e
      else if name = asciiBytes "ctz" then .ok [.I32 (ctz32 (toU32 a))] e
      else if name = asciiBytes "popcnt" then .ok [.I32 (popcnt32 (toU32 a))] e
      else if name = asciiBytes "extend8_s" then .ok [.I32 (extend8s a)] e
      else if name = asciiBytes "extend16_s" then .ok [.I32 (extend16s a)] e
      else if name = asciiBytes "eqz" then .ok [.I32 (if a = 0 then 1 else 0)] e
      else lookupPath
    | _ => lookupPath
  else if name = asciiBytes "eq" ∨ name = asciiBytes "ne" ∨ name = asciiBytes "lt_s" ∨
          name = asciiBytes "lt_u" ∨ name = asciiBytes "le_s" ∨ name = asciiBytes "le_u" ∨
          name = asciiBytes "gt_s" ∨ name = asciiBytes "gt_u" ∨ name = asciiBytes "ge_s" ∨
          name = asciiBytes "ge_u" then
    match args with
    | [.I32 a, .I32 b] =>
      if name = asciiBytes "eq" then .ok [.I32 (if a = b then 1 else 0)] e
      else if name = asciiBytes "ne" then .ok [.I32 (if a = b then 0 else 1)] e
      else if name = asciiBytes "lt_s" then .ok [.I32 (if a < b then 1 else 0)] e
      else if name = asciiBytes "lt_u" then
        .ok [.I32 (if toU32 a < toU32 b then 1 else 0)] e
      else if name = asciiBytes "le_s" then .ok [.I32 (if a ≤ b then 1 else 0)] e
      else if name = asciiBytes "le_u" then
        .ok [.I32 (if toU32 a ≤ toU32 b then 1 else 0)] e
      else if name = asciiBytes "gt_s" then .ok [.I32 (if a > b then 1 else 0)] e
      else if name = asciiBytes "gt_u" then
        .ok [.I32 (if toU32 a > toU32 b then 1 else 0)] e
      else if name = asciiBytes "ge_s" then .ok [.I32 (if a ≥ b then 1 else 0)] e
      else if name = asciiBytes "ge_u" then
        .ok [.I32 (if toU32 a ≥ toU32 b then 1 else 0)] e
      else lookupPath
    | _ => lookupPath
  else lookupPath

/-! ## Intercept layer (src/wrt-intercept/src/lib.rs)

A `LinkInterceptorStrategy` is a trait object; it is modelled as a
record of its three methods used by `intercept_call`: `before_call`
(which may substitute the arguments or fail), the `should_bypass` flag,
and `after_call` (which receives the original arguments and the
running result and may substitute it). -/

/-- A `LinkInterceptorStrategy`, as seen by `intercept_call`. -/
structure Strategy where
  before_call : List Nat → List Nat → List Nat → List Value → Except WError (List Value)
  should_bypass : Bool
  after_call : List Nat → List Nat → List Nat → List Value →
    Except WError (List Value) → Except WError (List Value)

/-- `LinkInterceptor`. -/
structure LinkInterceptor where
  name : List Nat
  strategies : List Strategy

/-- Result of the `before_call` loop: either some strategy bypassed
with its substituted arguments, or the loop ran through with the final
chained arguments. -/
inductive BeforePhase where
  | bypassed (args : List Value)
  | proceed (args : List Value)
deriving DecidableEq

/-- The `for strategy in &self.strategies` loop at the top of
`intercept_call`: chain `before_call` in order, stopping at the first
strategy whose `should_bypass()` is true. -/
def before_call_loop (name target function : List Nat) :
    List Strategy → List Value → Except WError BeforePhase
  | [], a => .ok (.proceed a)
  | s :: rest, a =>
    match s.before_call name target function a with
    | .error er => .error er
    | .ok a1 =>
      if s.should_bypass then .ok (.bypassed a1)
      else before_call_loop name target function rest a1

/-- `LinkInterceptor::intercept_call`. -/
def LinkInterceptor.intercept_call (li : LinkInterceptor) (target function : List Nat)
    (args : List Value) (call_fn : List Value → Except WError (List Value)) :
    Except WError (List Value) :=
  match before_call_loop li.name target function li.strategies args with
  | .error er => .error er
  | .ok (.bypassed modified_args) => .ok modified_args
  | .ok (.proceed modified_args) =>
    let result := call_fn modified_args
    (li.strategies.reverse).foldl
      (fun acc s => s.after_call li.name target function args acc) result

/-! ## Async execution engine
(src/wrt-component/src/async_/async_execution_engine.rs)

The `std` build of the engine is modelled (unbounded `Vec`s for the
execution list and context pool, `Vec::pop` from the back of the pool);
the `BoundedVec::push` capacity errors on the call stack and children
list keep the bounds named in the source. -/

/-- `MAX_CONCURRENT_EXECUTIONS` (no_std bound; named by the source). -/
def MAX_CONCURRENT_EXECUTIONS : Nat := 64

/-- `MAX_ASYNC_CALL_DEPTH`. -/
def MAX_ASYNC_CALL_DEPTH : Nat := 128

/-- The component-model `Value` variants the async engine constructs. -/
inductive CValue where
  | U32 (n : Nat)
  | U64 (n : Nat)
deriving DecidableEq

/-- `MemoryPermissions`. -/
structure MemoryPermissions where
  read : Bool
  write : Bool
  execute : Bool
deriving DecidableEq

/-- `MemoryRegion`. -/
structure MemoryRegion where
  start : Nat
  size : Nat
  permissions : MemoryPermissions
deriving DecidableEq

/-- `MemoryViews`. -/
structure MemoryViews where
  memory_base : Nat
  memory_size : Nat
  stack_region : MemoryRegion
  heap_region : MemoryRegion
deriving DecidableEq

/-- `MemoryViews::new`. -/
def MemoryViews.new : MemoryViews :=
  { memory_base := 0, memory_size := 0,
    stack_region := { start := 0, size := 0,
                      permissions := { read := true, write := true, execute := false } },
    heap_region := { start := 0, size := 0,
                     permissions := { read := true, write := true, execute := false } } }

/-- `WaitSet`. -/
structure WaitSet where
  futures : List Nat
  streams : List Nat
deriving DecidableEq

/-- `FrameAsyncState`. -/
inductive FrameAsyncState where
  | Sync
  | AwaitingFuture (h : Nat)
  | AwaitingStream (h : Nat)
  | AwaitingMultiple (ws : WaitSet)
deriving DecidableEq

/-- `CallFrame` (async side). -/
structure CallFrame where
  function : List Nat
  return_ip : Nat
  stack_pointer : Nat
  async_state : FrameAsyncState
deriving DecidableEq

/-- `ExecutionContext` (async side). -/
structure ExecutionContext where
  component_instance : Nat
  function_name : List Nat
  call_stack : List CallFrame
  locals : List CValue
  memory_views : MemoryViews
deriving DecidableEq

/-- `ExecutionContext::new`. -/
def ExecutionContext.new : ExecutionContext :=
  { component_instance := 0, function_name := [], call_stack := [], locals := [],
    memory_views := MemoryViews.new }

/-- `ExecutionContext::reset`. -/
def ExecutionContext.reset (_c : ExecutionContext) : ExecutionContext :=
  { component_instance := 0, function_name := [], call_stack := [], locals := [],
    memory_views := MemoryViews.new }

/-- `AsyncExecutionState`. -/
inductive AsyncExecutionState where
  | Ready | Running | Waiting | Suspended | Completed | Failed | Cancelled
deriving DecidableEq

/-- `StepResult`. -/
inductive StepResult where
  | Continue | Waiting | Suspended | Completed | Failed | Cancelled
deriving DecidableEq

/-- `AsyncExecutionOperation`. -/
inductive AsyncOp where
  | FunctionCall (name : List Nat) (args : List CValue)
  | StreamRead (handle : Nat) (count : Nat)
  | StreamWrite (handle : Nat) (data : List Nat)
  | FutureGet (handle : Nat)
  | FutureSet (handle : Nat) (value : CValue)
  | WaitMultiple (ws : WaitSet)
  | SpawnSubtask (function : List Nat) (args : List CValue)
deriving DecidableEq

/-- `ExecutionResult`. -/
structure ExecutionResult where
  values : List CValue
  execution_time_us : Nat
  memory_allocated : Nat
  instructions_executed : Nat
deriving DecidableEq

/-- `AsyncExecution`. -/
structure AsyncExecution where
  id : Nat
  task_id : Nat
  state : AsyncExecutionState
  context : ExecutionContext
  operation : AsyncOp
  result : Option ExecutionResult
  parent : Option Nat
  children : List Nat
deriving DecidableEq

/-- `ExecutionStats` (async side). -/
structure AsyncStats where
  executions_started : Nat
  executions_completed : Nat
  executions_failed : Nat
  executions_cancelled : Nat
  subtasks_spawned : Nat
  async_operations : Nat
  avg_execution_time_us : Nat
deriving DecidableEq

/-- `ExecutionStats::new` (async side). -/
def AsyncStats.new : AsyncStats :=
  { executions_started := 0, executions_completed := 0, executions_failed := 0,
    executions_cancelled := 0, subtasks_spawned := 0, async_operations := 0,
    avg_execution_time_us := 0 }

/-- `AsyncExecutionEngine`. -/
structure AsyncEngine where
  executions : List AsyncExecution
  context_pool : List ExecutionContext
  next_execution_id : Nat
  stats : AsyncStats
deriving DecidableEq

/-- `AsyncExecutionEngine::new`. -/
def AsyncEngine.new : AsyncEngine :=
  { executions := [], context_pool := [], next_execution_id := 1, stats := AsyncStats.new }

/-- Errors of the async engine (`wrt_error::Error` values, by their
static message). -/
inductive AsyncError where
  | executionNotFound
  | tooManyExecutions
  | tooManySubtasks
  | callStackOverflow
  | fuelExhausted
deriving DecidableEq

/-- Update one list element in place (the `self.executions[i].f = v`
idiom; no-op when the index is out of range, which never occurs on the
embedded paths). -/
def listModify (l : List α) (i : Nat) (f : α → α) : List α :=
  match l.get? i with
  | none => l
  | some x => l.set i (f x)

/-- Rust `Vec::pop` (from the back). -/
def popBack (l : List α) : Option (α × List α) :=
  match l.reverse with
  | [] => none
  | x :: r => some (x, r.reverse)

/-- Rust `Iterator::position`: index of the first element satisfying `p`. -/
def listPosition (p : α → Bool) : List α → Option Nat
  | [] => none
  | x :: rest => if p x then some 0 else (listPosition p rest).map (· + 1)

/-- `find_execution_index`. -/
def AsyncEngine.find_execution_index (eng : AsyncEngine) (execution_id : Nat) : Option Nat :=
  listPosition (fun ex => ex.id = execution_id) eng.executions

/-- `get_or_create_context` (std path: pop from the back of the pool). -/
def AsyncEngine.get_or_create_context (eng : AsyncEngine) :
    ExecutionContext × AsyncEngine :=
  match popBack eng.context_pool with
  | some (c, rest) => (c, { eng with context_pool := rest })
  | none => (ExecutionContext.new, eng)

/-- `return_context_to_pool`: reset, then push. -/
def AsyncEngine.return_context_to_pool (eng : AsyncEngine) (c : ExecutionContext) :
    AsyncEngine :=
  { eng with context_pool := eng.context_pool ++ [c.reset] }

/-- `register_subtask`. -/
def AsyncEngine.register_subtask (eng : AsyncEngine) (parent_id child_id : Nat) :
    (Except AsyncError Unit) × AsyncEngine :=
  match eng.find_execution_index parent_id with
  | none => (.error .executionNotFound, eng)
  | some idx =>
    match eng.executions.get? idx with
    | none => (.error .executionNotFound, eng)
    | some parent =>
      if parent.children.length ≥ 16 then (.error .tooManySubtasks, eng)
      else
        (.ok (), { eng with
          executions := listModify eng.executions idx
            (fun ex => { ex with children := ex.children ++ [child_id] }),
          stats := { eng.stats with subtasks_spawned := eng.stats.subtasks_spawned + 1 } })

/-- `start_execution`. -/
def AsyncEngine.start_execution (eng : AsyncEngine) (task_id : Nat) (operation : AsyncOp)
    (parent : Option Nat) : (Except AsyncError Nat) × AsyncEngine :=
  let execution_id := eng.next_execution_id
  let eng1 := { eng with next_execution_id := eng.next_execution_id + 1 }
  let (context, eng2) := eng1.get_or_create_context
  let execution : AsyncExecution :=
    { id := execution_id, task_id := task_id, state := .Ready, context := context,
      operation := operation, result := none, parent := parent, children := [] }
  if eng2.executions.length ≥ MAX_CONCURRENT_EXECUTIONS then
    (.error .tooManyExecutions, eng2)
  else
    let eng3 := { eng2 with
      executions := eng2.executions ++ [execution],
      stats := { eng2.stats with executions_started := eng2.stats.executions_started + 1 } }
    match parent with
    | none => (.ok execution_id, eng3)
    | some parent_id =>
      match eng3.register_subtask parent_id execution_id with
      | (.error er, eng4) => (.error er, eng4)
      | (.ok _, eng4) => (.ok execution_id, eng4)

/-- `cancel_execution`, with an explicit recursion bound: children are
cancelled first (their errors discarded by the `let _ =`), then the
target is marked `Cancelled` and its context reset and returned to the
pool.  Each recursive step descends from an execution to one of its
children, so for engines whose children always carry larger ids than
their parents (the only engines `start_execution` builds) a bound of
`executions.length + 1` never runs out. -/
def cancel_execution_fuel : Nat → AsyncEngine → Nat → (Except AsyncError Unit) × AsyncEngine
  | 0, eng, _ => (.error .fuelExhausted, eng)
  | fuel + 1, eng, execution_id =>
    match eng.find_execution_index execution_id with
    | none => (.error .executionNotFound, eng)
    | some idx =>
      match eng.executions.get? idx with
      | none => (.error .executionNotFound, eng)
      | some execution =>
        let children := execution.children
        let eng1 := children.foldl (fun acc c => (cancel_execution_fuel fuel acc c).2) eng
        let eng2 := { eng1 with
          executions := listModify eng1.executions idx
            (fun ex => { ex with state := .Cancelled }),
          stats := { eng1.stats with
            executions_cancelled := eng1.stats.executions_cancelled + 1 } }
        match eng2.executions.get? idx with
        | none => (.error .executionNotFound, eng2)
        | some target => (.ok (), eng2.return_context_to_pool target.context)

/-- `AsyncExecutionEngine::cancel_execution`. -/
def AsyncEngine.cancel_execution (eng : AsyncEngine) (execution_id : Nat) :
    (Except AsyncError Unit) × AsyncEngine :=
  cancel_execution_fuel (eng.executions.length + 1) eng execution_id

/-- `execute_function_call`. -/
def AsyncEngine.execute_function_call (eng : AsyncEngine) (idx : Nat) (name : List Nat)
    (_args : List CValue) : (Except AsyncError StepResult) × AsyncEngine :=
  match eng.executions.get? idx with
  | none => (.error .executionNotFound, eng)
  | some ex =>
    if ex.context.call_stack.length ≥ MAX_ASYNC_CALL_DEPTH then
      (.error .callStackOverflow, eng)
    else
      let frame : CallFrame :=
        { function := name, return_ip := 0, stack_pointer := 0, async_state := .Sync }
      let result : ExecutionResult :=
        { values := [.U32 42], execution_time_us := 100, memory_allocated := 0,
          instructions_executed := 1000 }
      (.ok .Completed, { eng with
        executions := listModify eng.executions idx (fun ex1 =>
          { ex1 with
            context := { ex1.context with call_stack := ex1.context.call_stack ++ [frame] },
            result := some result }) })

/-- `execute_stream_read`. -/
def AsyncEngine.execute_stream_read (eng : AsyncEngine) (idx handle : Nat) (_count : Nat) :
    (Except AsyncError StepResult) × AsyncEngine :=
  match eng.executions.get? idx with
  | none => (.error .executionNotFound, eng)
  | some ex =>
    if ex.context.call_stack.length ≥ MAX_ASYNC_CALL_DEPTH then
      (.error .callStackOverflow, eng)
    else
      let frame : CallFrame :=
        { function := asciiBytes "stream.read", return_ip := 0, stack_pointer := 0,
          async_state := .AwaitingStream handle }
      (.ok .Waiting, { eng with
        executions := listModify eng.executions idx (fun ex1 =>
          { ex1 with
            context := { ex1.context with call_stack := ex1.context.call_stack ++ [frame] } }) })

/-- `execute_stream_write`. -/
def AsyncEngine.execute_stream_write (eng : AsyncEngine) (idx _handle : Nat)
    (data : List Nat) : (Except AsyncError StepResult) × AsyncEngine :=
  let result : ExecutionResult :=
    { values := [.U32 data.length], execution_time_us := 50, memory_allocated := 0,
      instructions_executed := 100 }
  (.ok .Completed, { eng with
    executions := listModify eng.executions idx (fun ex1 => { ex1 with result := some result }) })

/-- `execute_future_get`. -/
def AsyncEngine.execute_future_get (eng : AsyncEngine) (idx handle : Nat) :
    (Except AsyncError StepResult) × AsyncEngine :=
  match eng.executions.get? idx with
  | none => (.error .executionNotFound, eng)
  | some ex =>
    if ex.context.call_stack.length ≥ MAX_ASYNC_CALL_DEPTH then
      (.error .callStackOverflow, eng)
    else
      let frame : CallFrame :=
        { function := asciiBytes "future.get", return_ip := 0, stack_pointer := 0,
          async_state := .AwaitingFuture handle }
      (.ok .Waiting, { eng with
        executions := listModify eng.executions idx (fun ex1 =>
          { ex1 with
            context := { ex1.context with call_stack := ex1.context.call_stack ++ [frame] } }) })

/-- `execute_future_set`. -/
def AsyncEngine.execute_future_set (eng : AsyncEngine) (idx _handle : Nat)
    (_value : CValue) : (Except AsyncError StepResult) × AsyncEngine :=
  let result : ExecutionResult :=
    { values := [], execution_time_us := 10, memory_allocated := 0,
      instructions_executed := 50 }
  (.ok .Completed, { eng with
    executions := listModify eng.executions idx (fun ex1 => { ex1 with result := some result }) })

/-- `execute_wait_multiple`. -/
def AsyncEngine.execute_wait_multiple (eng : AsyncEngine) (idx : Nat) (ws : WaitSet) :
    (Except AsyncError StepResult) × AsyncEngine :=
  match eng.executions.get? idx with
  | none => (.error .executionNotFound, eng)
  | some ex =>
    if ex.context.call_stack.length ≥ MAX_ASYNC_CALL_DEPTH then
      (.error .callStackOverflow, eng)
    else
      let frame : CallFrame :=
        { function := asciiBytes "wait.multiple", return_ip := 0, stack_pointer := 0,
          async_state := .AwaitingMultiple ws }
      (.ok .Waiting, { eng with
        executions := listModify eng.executions idx (fun ex1 =>
          { ex1 with
            context := { ex1.context with call_stack := ex1.context.call_stack ++ [frame] } }) })

/-- `execute_spawn_subtask`. -/
def AsyncEngine.execute_spawn_subtask (eng : AsyncEngine) (idx : Nat) (function : List Nat)
    (args : List CValue) : (Except AsyncError StepResult) × AsyncEngine :=
  match eng.executions.get? idx with
  | none => (.error .executionNotFound, eng)
  | some ex =>
    let subtask_op : AsyncOp := .FunctionCall function args
    match eng.start_execution ex.task_id subtask_op (some ex.id) with
    | (.error er, eng1) => (.error er, eng1)
    | (.ok subtask_id, eng1) =>
      let result : ExecutionResult :=
        { values := [.U64 subtask_id], execution_time_us := 20, memory_allocated := 0,
          instructions_executed := 100 }
      (.ok .Completed, { eng1 with
        executions := listModify eng1.executions idx
          (fun ex1 => { ex1 with result := some result }) })

/-- `step_execution`: the early return on terminal and waiting states,
then the per-operation dispatch, then the state and statistics
updates. -/
def AsyncEngine.step_execution (eng : AsyncEngine) (execution_id : Nat) :
    (Except AsyncError StepResult) × AsyncEngine :=
  match eng.find_execution_index execution_id with
  | none => (.error .executionNotFound, eng)
  | some idx =>
    match eng.executions.get? idx with
    | none => (.error .executionNotFound, eng)
    | some execution =>
      match execution.state with
      | .Waiting => (.ok .Waiting, eng)
      | .Suspended => (.ok .Suspended, eng)
      | .Completed => (.ok .Completed, eng)
      | .Failed => (.ok .Failed, eng)
      | .Cancelled => (.ok .Cancelled, eng)
      | _ =>
        let eng1 := { eng with
          executions := listModify eng.executions idx
            (fun ex => { ex with state := .Running }) }
        let dispatch : (Except AsyncError StepResult) × AsyncEngine :=
          match execution.operation with
          | .FunctionCall name args => eng1.execute_function_call idx name args
          | .StreamRead handle count => eng1.execute_stream_read idx handle count
          | .StreamWrite handle data => eng1.execute_stream_write idx handle data
          | .FutureGet handle => eng1.execute_future_get idx handle
          | .FutureSet handle value => eng1.execute_future_set idx handle value
          | .WaitMultiple ws => eng1.execute_wait_multiple idx ws
          | .SpawnSubtask function args => eng1.execute_spawn_subtask idx function args
        match dispatch with
        | (.error er, eng2) => (.error er, eng2)
        | (.ok step_result, eng2) =>
          let eng3 :=
            match step_result with
            | .Waiting => { eng2 with
                executions := listModify eng2.executions idx
                  (fun ex => { ex with state := .Waiting }) }
            | .Completed => { eng2 with
                executions := listModify eng2.executions idx
                  (fun ex => { ex with state := .Completed }),
                stats := { eng2.stats with
                  executions_completed := eng2.stats.executions_completed + 1 } }
            | .Failed => { eng2 with
                executions := listModify eng2.executions idx
                  (fun ex => { ex with state := .Failed }),
                stats := { eng2.stats with
                  executions_failed := eng2.stats.executions_failed + 1 } }
            | _ => eng2
          (.ok step_result, { eng3 with
            stats := { eng3.stats with
              async_operations := eng3.stats.async_operations + 1 } })

/-- `is_complete`. -/
def AsyncEngine.is_complete (eng : AsyncEngine) (execution_id : Nat) :
    Except AsyncError Bool :=
  match eng.executions.find? (fun ex => ex.id = execution_id) with
  | none => .error .executionNotFound
  | some execution =>
    .ok (execution.state = .Completed ∨ execution.state = .Failed ∨
         execution.state = .Cancelled)

/-- `get_result`. -/
def AsyncEngine.get_result (eng : AsyncEngine) (execution_id : Nat) :
    Except AsyncError (Option ExecutionResult) :=
  match eng.executions.find? (fun ex => ex.id = execution_id) with
  | none => .error .executionNotFound
  | some execution => .ok execution.result

/-! ## Concrete inputs and statement-side definitions for the claims -/

/-- The engine half of an `EngineStep`, when it did not panic. -/
def EngineStep.engineOf : EngineStep α → Option Engine
  | .ok _ e => some e
  | .err _ e => some e
  | .panicked => none

/-- The `fuel` field is unchanged by an engine step (vacuously for a
panic, which loses the engine). -/
def fuelUnchanged (e : Engine) : EngineStep α → Prop
  | .ok _ e1 => e1.fuel = e.fuel
  | .err _ e1 => e1.fuel = e.fuel
  | .panicked => True

/-- A one-function module whose single export carries the given name
and whose function has the binary-i32 signature; used to drive the
`resume` shims. -/
def binOpModule (opName : String) : Module :=
  { Module.new with
    types := [{ params := [.I32, .I32], results := [.I32] }],
    functions := [{ type_idx := 0, locals := [], body := [] }],
    exports := [{ name := asciiBytes opName, kind := .Function, index := 0 }] }

/-- Engine paused on the `div_s` module's function. -/
def c2EngineDiv : Engine :=
  { state := .Paused 0 0 0 1, instances := [⟨binOpModule "div_s"⟩], globals := [],
    fuel := none, memories := [] }

/-- Engine paused on the `rem_s` module's function. -/
def c2EngineRem : Engine :=
  { state := .Paused 0 0 0 1, instances := [⟨binOpModule "rem_s"⟩], globals := [],
    fuel := none, memories := [] }

/-- A module exporting `answer`, a function of no parameters whose body
is `i32.const 42; end`. -/
def c3Module : Module :=
  { Module.new with
    types := [{ params := [], results := [.I32] }],
    functions := [{ type_idx := 0, locals := [], body := [.I32Const 42, .End] }],
    exports := [{ name := asciiBytes "answer", kind := .Function, index := 0 }] }

/-- Engine over `c3Module` whose fuel was set to `Some(0)`. -/
def c3Engine : Engine :=
  { state := .Running, instances := [⟨c3Module⟩], globals := [], fuel := some 0,
    memories := [] }

/-- A core-module binary whose only content is an import
section importing one global with `mutable = true`. -/
def c5Bytes : List Nat :=
  [0x00, 0x61, 0x73, 0x6D, 0x01, 0x00, 0x00, 0x00,
   0x02, 0x08, 0x01, 0x01, 0x61, 0x01, 0x62, 0x03, 0x7F, 0x01]

/-- The module `c5Bytes` decodes to. -/
def c5Module : Module :=
  { Module.new with
    imports := [{ module := [0x61], name := [0x62],
                  ty := .Global { content_type := .I32, mutable := true } }] }

/-- A core-module binary with one type, one imported function and one
module-defined mutable global. -/
def c5Bytes2 : List Nat :=
  [0x00, 0x61, 0x73, 0x6D, 0x01, 0x00, 0x00, 0x00,
   0x01, 0x04, 0x01, 0x60, 0x00, 0x00,
   0x02, 0x07, 0x01, 0x01, 0x61, 0x01, 0x62, 0x00, 0x00,
   0x06, 0x06, 0x01, 0x7F, 0x01, 0x41, 0x00, 0x0B]

/-- Global-section payload: one immutable i32 global whose init
expression is two `i32.const` instructions before the `end` opcode. -/
def c6TwoConstSection : List Nat := [0x01, 0x7F, 0x00, 0x41, 0x01, 0x41, 0x02, 0x0B]

/-- Global-section payload: one global whose init expression is a
single `i32.const 11` with no `end` opcode at all (the operand byte
`0x0B` is what the scan stops at). -/
def c6NoEndSection : List Nat := [0x01, 0x7F, 0x00, 0x41, 0x0B]

/-- Table-section payload declaring two funcref tables. -/
def c7TwoTablesSection : List Nat := [0x02, 0x70, 0x00, 0x00, 0x70, 0x00, 0x00]

/-- Table-section payload declaring one funcref table. -/
def c7OneTableSection : List Nat := [0x01, 0x70, 0x00, 0x00]

/-- `MAX_TABLES_IN_MODULE` (src/wrt-foundation/src/types.rs line 74);
the wrt decoder never consults it. -/
def MAX_TABLES_IN_MODULE : Nat := 16

/-- A header-only core-module binary: valid magic and version, no
sections at all, hence no functions and no imports. -/
def c10HeaderOnly : List Nat := [0x00, 0x61, 0x73, 0x6D, 0x01, 0x00, 0x00, 0x00]

/-- A minimal well-formed binary that does decode: one `() -> ()`
type, one function, one empty body. -/
def c10GoodBytes : List Nat :=
  [0x00, 0x61, 0x73, 0x6D, 0x01, 0x00, 0x00, 0x00,
   0x01, 0x04, 0x01, 0x60, 0x00, 0x00,
   0x03, 0x02, 0x01, 0x00,
   0x0A, 0x04, 0x01, 0x02, 0x00, 0x0B]

/-- The module `c10GoodBytes` decodes to. -/
def c10GoodModule : Module :=
  { Module.new with
    types := [{ params := [], results := [] }],
    functions := [{ type_idx := 0, locals := [], body := [] }] }

/-- The 25 export names of the claim about `invoke_export`'s fast
path. -/
def c9Names : List (List Nat) :=
  [asciiBytes "add", asciiBytes "sub", asciiBytes "mul", asciiBytes "div_s",
   asciiBytes "div_u", asciiBytes "rem_s", asciiBytes "rem_u", asciiBytes "and",
   asciiBytes "or", asciiBytes "xor", asciiBytes "shl", asciiBytes "shr_s",
   asciiBytes "shr_u", asciiBytes "rotl", asciiBytes "rotr", asciiBytes "eq",
   asciiBytes "ne", asciiBytes "lt_s", asciiBytes "lt_u", asciiBytes "le_s",
   asciiBytes "le_u", asciiBytes "gt_s", asciiBytes "gt_u", asciiBytes "ge_s",
   asciiBytes "ge_u"]

/-- The claim-side description of the fast path: the value
`invoke_export` must produce for each of the 25 names from the two
`I32` arguments alone. -/
def c9SpecResult (name : List Nat) (a b : Int) : Except WError (List Value) :=
  if name = asciiBytes "add" then .ok [.I32 (wrapAdd32 a b)]
  else if name = asciiBytes "sub" then .ok [.I32 (wrapSub32 a b)]
  else if name = asciiBytes "mul" then .ok [.I32 (wrapMul32 a b)]
  else if name = asciiBytes "div_s" then
    if b = 0 then .error .DivisionByZero
    else if a = i32Min ∧ b = -1 then .error .IntegerOverflow
    else .ok [.I32 (wrapDivS32 a b)]
  else if name = asciiBytes "div_u" then
    if b = 0 then .error .DivisionByZero
    else .ok [.I32 (i32ofU32 (toU32 a / toU32 b))]
  else if name = asciiBytes "rem_s" then
    if b = 0 then .error .DivisionByZero
    else if a = i32Min ∧ b = -1 then .ok [.I32 0]
    else .ok [.I32 (Int.tmod a b)]
  else if name = asciiBytes "rem_u" then
    if b = 0 then .error .DivisionByZero
    else .ok [.I32 (i32ofU32 (toU32 a % toU32 b))]
  else if name = asciiBytes "and" then .ok [.I32 (i32ofU32 (Nat.land (toU32 a) (toU32 b)))]
  else if name = asciiBytes "or" then .ok [.I32 (i32ofU32 (Nat.lor (toU32 a) (toU32 b)))]
  else if name = asciiBytes "xor" then .ok [.I32 (i32ofU32 (Nat.xor (toU32 a) (toU32 b)))]
  else if name = asciiBytes "shl" then .ok [.I32 (wrapShl32 a (toU32 b % 32))]
  else if name = asciiBytes "shr_s" then .ok [.I32 (wrapAShr32 a (toU32 b % 32))]
  else if name = asciiBytes "shr_u" then
    .ok [.I32 (i32ofU32 (wrapLShr32 (toU32 a) (toU32 b % 32)))]
  else if name = asciiBytes "rotl" then
    let shift := toU32 b % 32
    .ok [.I32 (i32ofU32 (Nat.lor (toU32 (wrapShl32 a shift))
          (wrapLShr32 (toU32 a) (32 - shift))))]
  else if name = asciiBytes "rotr" then
    .ok [.I32 (i32ofU32 (rotateRight32 (toU32 a) (toU32 b % 32)))]
  else if name = asciiBytes "eq" then .ok [.I32 (if a = b then 1 else 0)]
  else if name = asciiBytes "ne" then .ok [.I32 (if a = b then 0 else 1)]
  else if name = asciiBytes "lt_s" then .ok [.I32 (if a < b then 1 else 0)]
  else if name = asciiBytes "lt_u" then .ok [.I32 (if toU32 a < toU32 b then 1 else 0)]
  else if name = asciiBytes "le_s" then .ok [.I32 (if a ≤ b then 1 else 0)]
  else if name = asciiBytes "le_u" then .ok [.I32 (if toU32 a ≤ toU32 b then 1 else 0)]
  else if name = asciiBytes "gt_s" then .ok [.I32 (if a > b then 1 else 0)]
  else if name = asciiBytes "gt_u" then .ok [.I32 (if toU32 a > toU32 b then 1 else 0)]
  else if name = asciiBytes "ge_s" then .ok [.I32 (if a ≥ b then 1 else 0)]
  else if name = asciiBytes "ge_u" then .ok [.I32 (if toU32 a ≥ toU32 b then 1 else 0)]
  else .error (.ExportNotFound name)

/-- Lift a pure result to an `EngineStep` that leaves the engine
unchanged. -/
def pureStep (e : Engine) : Except WError (List Value) → EngineStep (List Value)
  | .ok v => .ok v e
  | .error er => .err er e

/-- A concrete non-bypassing strategy: `before_call` appends `I32 1`
to the arguments, `after_call` passes the result through. -/
def c4Append : Strategy :=
  { before_call := fun _ _ _ a => .ok (a ++ [.I32 1]),
    should_bypass := false,
    after_call := fun _ _ _ _ r => r }

/-- A concrete bypassing strategy: `before_call` substitutes
`[I32 99]` and `should_bypass` is true. -/
def c4Bypass : Strategy :=
  { before_call := fun _ _ _ _ => .ok [.I32 99],
    should_bypass := true,
    after_call := fun _ _ _ _ r => r }

/-- Interceptor with the single non-bypassing strategy. -/
def c4PlainLI : LinkInterceptor := ⟨[], [c4Append]⟩

/-- Interceptor whose second strategy bypasses. -/
def c4BypassLI : LinkInterceptor := ⟨[], [c4Append, c4Bypass]⟩

/-! ### Statement-side definitions for the cancellation claim -/

/-- Children registered by `register_subtask` always carry a larger id
than their parent, since `start_execution` allocates strictly increasing
ids and registers the fresh id as a child of an existing execution. -/
def childrenMonotone (eng : AsyncEngine) : Prop :=
  ∀ ex ∈ eng.executions, ∀ c ∈ ex.children, ex.id < c

/-- No two executions share an id (again an invariant of
`start_execution`, which allocates fresh ids). -/
def idsNodup (eng : AsyncEngine) : Prop :=
  (eng.executions.map (fun ex => ex.id)).Nodup

instance (eng : AsyncEngine) : Decidable (childrenMonotone eng) :=
  decidable_of_iff (∀ ex ∈ eng.executions, ∀ c ∈ ex.children, ex.id < c) Iff.rfl

instance (eng : AsyncEngine) : Decidable (idsNodup eng) := by
  unfold idsNodup; infer_instance

/-- `c` is registered as a child of the execution whose id is `p`. -/
def childRel (eng : AsyncEngine) (p c : Nat) : Prop :=
  ∃ ex ∈ eng.executions, ex.id = p ∧ c ∈ ex.children

/-- `d` lies strictly below `a` in the subtask tree. -/
def descendantOf (eng : AsyncEngine) (a d : Nat) : Prop :=
  Relation.TransGen (childRel eng) a d

/-- The state of the execution with the given id, if there is one. -/
def stateOf (eng : AsyncEngine) (id : Nat) : Option AsyncExecutionState :=
  (eng.executions.find? (fun ex => ex.id = id)).map (fun ex => ex.state)

/-- One engine evolves from another by cancelling some executions: every
execution slot is either unchanged or has had exactly its state set to
`Cancelled`, and the context pool has only grown at the back. -/
def cancelEvolves (eng eng1 : AsyncEngine) : Prop :=
  (∀ i, eng1.executions.get? i = eng.executions.get? i ∨
     ∃ ex, eng.executions.get? i = some ex ∧
       eng1.executions.get? i = some { ex with state := AsyncExecutionState.Cancelled }) ∧
  ∃ l, eng1.context_pool = eng.context_pool ++ l

/-- Number of executions whose id is at least `id`: the measure that
shrinks along the child recursion of `cancel_execution_fuel`. -/
def countGE (eng : AsyncEngine) (id : Nat) : Nat :=
  ((eng.executions.map (fun ex => ex.id)).filter (fun n => id ≤ n)).length

def c8Ctx1 : ExecutionContext :=
  { component_instance := 1, function_name := asciiBytes "main", call_stack := [],
    locals := [], memory_views := MemoryViews.new }

def c8Ex1 : AsyncExecution :=
  { id := 1, task_id := 10, state := AsyncExecutionState.Running, context := c8Ctx1,
    operation := AsyncOp.FunctionCall (asciiBytes "main") [], result := none,
    parent := none, children := [2] }

def c8Ex2 : AsyncExecution :=
  { id := 2, task_id := 10, state := AsyncExecutionState.Ready,
    context := ExecutionContext.new,
    operation := AsyncOp.FunctionCall (asciiBytes "sub") [], result := none,
    parent := some 1, children := [] }

def c8Eng : AsyncEngine :=
  { executions := [c8Ex1, c8Ex2], context_pool := [], next_execution_id := 3,
    stats := AsyncStats.new }

/-! ## General lemmas about `Outcome` -/

theorem Outcome.ok_bind {α β : Type} (a : α) (f : α → Outcome β) :
    (Outcome.ok a : Outcome α) >>= f = f a := rfl

theorem Outcome.err_bind {α β : Type} (er : WError) (f : α → Outcome β) :
    (Outcome.err er : Outcome α) >>= f = .err er := rfl

theorem Outcome.panicked_bind {α β : Type} (f : α → Outcome β) :
    (Outcome.panicked : Outcome α) >>= f = .panicked := rfl

theorem Outcome.bind_eq_ok {α β : Type} {m : Outcome α} {f : α → Outcome β} {b : β} :
    m >>= f = .ok b ↔ ∃ a, m = .ok a ∧ f a = .ok b := by
  cases m <;> simp [Outcome.ok_bind, Outcome.err_bind, Outcome.panicked_bind]

/-! ## C2 — integer division and remainder -/

/-- C2: the claim fails on the `resume` path.  With a module exporting
`div_s` and arguments `[I32(i32::MIN), I32(-1)]`, `resume` evaluates
the Rust expression `a / b`, which panics with a division overflow
instead of trapping `IntegerOverflow`; with `rem_s` it evaluates
`a % b`, which likewise panics instead of yielding 0.  (The separate
fast path in `invoke_export` does implement the claimed semantics; see
the theorem for C9.) -/
theorem C2_resume_division_panics :
    Engine.resume c2EngineDiv [.I32 i32Min, .I32 (-1)] = .panicked ∧
    Engine.resume c2EngineRem [.I32 i32Min, .I32 (-1)] = .panicked :=
  ⟨rfl, rfl⟩

/-! ## C3 — fuel -/

/-- C3: the claim fails on the code: `set_fuel` stores the fuel value
and nothing ever decrements or checks it.  For every initial fuel `F`
(including `Some 0`), executing the exported function of `c3Module`
runs it to completion: the engine ends `Finished` (never `Paused` by
fuel) with `remaining_fuel` still exactly `F`, not `Some(F − N)`. -/
theorem C3_fuel_never_consumed :
    (∀ (e : Engine) (f : Option Nat), (Engine.set_fuel e f).remaining_fuel = f) ∧
    (∀ F : Option Nat,
      Engine.execute { c3Engine with fuel := F } 0 0 [] =
        .ok [.I32 42] { c3Engine with fuel := F, state := .Finished }) :=
  ⟨fun _ _ => rfl, fun _ => rfl⟩

/-! ## C5 — imported mutable globals -/

/-- C5: the claim fails on the code.  `parse_import_section` accepts a
global import with `mutable = true`, and `Module::validate` examines
only the module-defined `globals` list (against the *count*
of imports), so `c5Bytes` — a module whose only content is one
mutable global import — decodes successfully and reaches the engine.
Conversely `c5Bytes2`, which defines its own mutable global and has
one (function) import, is wrongly rejected with the imported-global
error. -/
theorem C5_mutable_global_import_accepted :
    Module.load_from_binary c5Bytes = .ok c5Module ∧
    (c5Module.imports.any (fun imp =>
      match imp.ty with
      | .Global gt => gt.mutable
      | _ => false)) = true ∧
    Module.load_from_binary c5Bytes2 =
      .err (.Validation "Imported global cannot be mutable") :=
  ⟨rfl, rfl, rfl⟩

/-! ## C6 — global init expressions -/

/-- C6: the claim fails on the code.  `parse_global_section` skips the
init expression by scanning to the first `0x0B` byte: an expression of
two `i32.const` instructions before `end` is accepted, and even
`i32.const 11` with no `end` at all is accepted (its operand byte
`0x0B` is mistaken for `end`).  Neither is a `ParseError`. -/
theorem C6_init_expr_not_checked :
    parse_global_section Module.new c6TwoConstSection =
      .ok { Module.new with globals := [{ content_type := .I32, mutable := false }] } ∧
    parse_global_section Module.new c6NoEndSection =
      .ok { Module.new with globals := [{ content_type := .I32, mutable := false }] } :=
  ⟨rfl, rfl⟩

/-! ## C7 — one memory, table cap -/

/-- A successful `Module::validate` implies at most one memory. -/
theorem validate_ok_memories {m : Module} {u : Unit} (h : m.validate = .ok u) :
    m.memories.length ≤ 1 := by
  unfold Module.validate at h
  split at h
  · simp at h
  · rw [Outcome.bind_eq_ok] at h
    obtain ⟨_, _, h⟩ := h
    rw [Outcome.bind_eq_ok] at h
    obtain ⟨_, _, h⟩ := h
    split at h
    · simp at h
    · omega

/-- Any module `load_from_binary` returns has a function or an import,
and at most one memory. -/
theorem load_ok_shape {bytes : List Nat} {m : Module}
    (h : Module.load_from_binary bytes = .ok m) :
    (m.functions ≠ [] ∨ m.imports ≠ []) ∧ m.memories.length ≤ 1 := by
  unfold Module.load_from_binary at h
  split at h
  · simp at h
  · split at h
    · simp at h
    · dsimp only [] at h
      split at h
      · simp at h
      · split at h
        · unfold load_component_binary at h
          simp only [Outcome.ok.injEq] at h
          subst h
          exact ⟨Or.inl (by simp), by simp⟩
        · rw [Outcome.bind_eq_ok] at h
          obtain ⟨m1, hloop, h⟩ := h
          split at h
          · simp at h
          · rename_i hne
            rw [Outcome.bind_eq_ok] at h
            obtain ⟨u, hval, h⟩ := h
            simp only [Outcome.ok.injEq] at h
            subst h
            refine ⟨?_, validate_ok_memories hval⟩
            rcases not_and_or.mp hne with h1 | h1
            · exact Or.inl fun hfe => h1 (by simp [hfe])
            · exact Or.inr fun hie => h1 (by simp [hie])

/-- C7 counterexample: a table section declaring two tables — a count
well below `MAX_TABLES_IN_MODULE = 16` — is rejected by the decoder,
refuting the claim that any count up to 16 is accepted. -/
theorem C7_two_tables_rejected_below_cap :
    2 ≤ MAX_TABLES_IN_MODULE ∧
    parse_table_section Module.new c7TwoTablesSection =
      .err (.Parse "Too many tables in module") :=
  ⟨by decide, rfl⟩

/-- C7, amended: decoding succeeds only with at most one memory, and
the table section is rejected for every declared count above **one**
(the `MAX_TABLES_IN_MODULE = 16` constant of wrt-foundation is not
consulted); a single table is accepted. -/
theorem C7_one_memory_one_table :
    (∀ bytes m, Module.load_from_binary bytes = .ok m → m.memories.length ≤ 1) ∧
    (∀ (m : Module) (bytes : List Nat) (n k : Nat),
      read_leb128_u32 bytes = .ok (n, k) → n > 1 →
      parse_table_section m bytes = .err (.Parse "Too many tables in module")) ∧
    parse_table_section Module.new c7OneTableSection =
      .ok { Module.new with tables := [{ element_type := .FuncRef, min := 0, max := none }] } := by
  refine ⟨fun bytes m h => (load_ok_shape h).2, fun m bytes n k h hn => ?_, rfl⟩
  simp [parse_table_section, h, Outcome.ok_bind, hn]

/-- Witness for the amended C7 theorem at concrete inputs. -/
theorem C7_one_memory_one_table_witness :
    c10GoodModule.memories.length ≤ 1 ∧
    parse_table_section Module.new c7TwoTablesSection =
      .err (.Parse "Too many tables in module") :=
  ⟨C7_one_memory_one_table.1 c10GoodBytes c10GoodModule (by rfl),
   C7_one_memory_one_table.2.1 Module.new c7TwoTablesSection 2 1 (by rfl) (by decide)⟩

/-! ## C10 — empty modules are rejected -/

/-- C10: `load_from_binary` returns a Parse error for any module with
no functions and no imports — a well-formed header-only binary is
rejected with exactly that error, and every successfully decoded
module has a function or an import, so an empty module can never be
instantiated. -/
theorem C10_empty_module_rejected :
    (∀ bytes m, Module.load_from_binary bytes = .ok m →
      m.functions ≠ [] ∨ m.imports ≠ []) ∧
    Module.load_from_binary c10HeaderOnly =
      .err (.Parse "Module has no functions or imports") :=
  ⟨fun _ _ h => (load_ok_shape h).1, rfl⟩

/-- Witness for C10 at a concrete decodable binary. -/
theorem C10_empty_module_rejected_witness :
    c10GoodModule.functions ≠ [] ∨ c10GoodModule.imports ≠ [] :=
  C10_empty_module_rejected.1 c10GoodBytes c10GoodModule (by rfl)

/-! ## C1 — v128 linear-memory bounds -/

theorem natToLeBytes16_length (n : Nat) : (natToLeBytes16 n).length = 16 := by
  simp [natToLeBytes16]

/-- C1: the 16-byte v128 load and store succeed exactly when the
effective address plus 16, computed without wrap-around, is at most
`size_bytes`; otherwise they trap with the memory-out-of-bounds
execution error and the memory contents are unchanged (the failing
store returns the frame untouched; the load never writes).  The
effective address is `addr.wrapping_add(offset)` as in the source; the
bounds comparison itself does not wrap.  `Memory::read_bytes` and
`Memory::write_bytes` are modelled from spec §4.2 (their type is not
among the sources). -/
theorem C1_v128_access_bounds (mem : Memory) (restMems : List Memory)
    (rest : List Value) (a : Int) (v : Nat) (offset align : Nat) :
    ((toU32 a + offset) % u32Mod + 16 ≤ mem.size_bytes →
      v128_load ⟨⟨mem :: restMems⟩⟩ (.I32 a :: rest) offset align =
        (.ok (),
         .V128 (leBytesToNat ((mem.bytes.drop ((toU32 a + offset) % u32Mod)).take 16)) :: rest) ∧
      v128_store ⟨⟨mem :: restMems⟩⟩ (.V128 v :: .I32 a :: rest) offset align =
        (.ok (), ⟨⟨⟨mem.bytes.take ((toU32 a + offset) % u32Mod) ++ natToLeBytes16 v ++
            mem.bytes.drop ((toU32 a + offset) % u32Mod + 16)⟩ :: restMems⟩⟩, rest)) ∧
    (mem.size_bytes < (toU32 a + offset) % u32Mod + 16 →
      v128_load ⟨⟨mem :: restMems⟩⟩ (.I32 a :: rest) offset align =
        (.err (.Execution (.memoryOutOfBounds (toU32 a) offset mem.size_bytes)), rest) ∧
      v128_store ⟨⟨mem :: restMems⟩⟩ (.V128 v :: .I32 a :: rest) offset align =
        (.err (.Execution (.memoryOutOfBounds (toU32 a) offset mem.size_bytes)),
         ⟨⟨mem :: restMems⟩⟩, rest)) := by
  constructor
  · intro h
    simp only [Memory.size_bytes] at h
    constructor
    · simp only [v128_load, Memory.read_bytes, Memory.size_bytes]
      rw [if_neg (by omega), if_pos (by omega)]
    · simp only [v128_store, Memory.write_bytes, Memory.size_bytes]
      rw [if_neg (by omega), if_pos (by rw [natToLeBytes16_length]; omega),
          natToLeBytes16_length]
  · intro h
    simp only [Memory.size_bytes] at h
    constructor
    · simp only [v128_load, Memory.size_bytes]
      rw [if_pos (by omega)]
    · simp only [v128_store, Memory.size_bytes]
      rw [if_pos (by omega)]

/-- Witness for C1 on a 32-byte memory: an in-bounds access at address
0 and an out-of-bounds access at address 20 (20 + 16 > 32). -/
theorem C1_v128_access_bounds_witness :
    (v128_load ⟨⟨[⟨List.replicate 32 7⟩]⟩⟩ [.I32 0] 0 0 =
       (.ok (), [.V128 (leBytesToNat ((List.replicate 32 (7 : Nat)).take 16))]) ∧
     v128_store ⟨⟨[⟨List.replicate 32 7⟩]⟩⟩ [.V128 5, .I32 0] 0 0 =
       (.ok (), ⟨⟨[⟨natToLeBytes16 5 ++ (List.replicate 32 (7 : Nat)).drop 16⟩]⟩⟩, [])) ∧
    (v128_load ⟨⟨[⟨List.replicate 32 7⟩]⟩⟩ [.I32 20] 0 0 =
       (.err (.Execution (.memoryOutOfBounds 20 0 32)), []) ∧
     v128_store ⟨⟨[⟨List.replicate 32 7⟩]⟩⟩ [.V128 5, .I32 20] 0 0 =
       (.err (.Execution (.memoryOutOfBounds 20 0 32)), ⟨⟨[⟨List.replicate 32 7⟩]⟩⟩, [])) :=
  ⟨(C1_v128_access_bounds ⟨List.replicate 32 7⟩ [] [] 0 5 0 0).1 (by decide),
   (C1_v128_access_bounds ⟨List.replicate 32 7⟩ [] [] 20 5 0 0).2 (by decide)⟩

/-! ## C9 — the `invoke_export` fast path -/

/-- C9: for each of the 25 special export names, `invoke_export` on
two `I32` arguments computes its answer from the name and the argument
values alone — the very same engine is returned untouched (so no
instance or export lookup happens and no function body runs), and the
result is the pure function `c9SpecResult` of the name and arguments,
for example `I32(wrapping_add a b)` for "add". -/
theorem C9_invoke_export_fast_path (e : Engine) (a b : Int) (name : List Nat)
    (h : name ∈ c9Names) :
    Engine.invoke_export e name [.I32 a, .I32 b] = pureStep e (c9SpecResult name a b) := by
  fin_cases h <;>
    first
      | rfl
      | (simp [Engine.invoke_export, c9SpecResult, pureStep, asciiBytes];
          split_ifs <;> rfl)

/-- Witness for C9: "add" on 40 and 2 over the concrete `c3Engine`. -/
theorem C9_invoke_export_fast_path_witness :
    Engine.invoke_export c3Engine (asciiBytes "add") [.I32 40, .I32 2] =
      pureStep c3Engine (c9SpecResult (asciiBytes "add") 40 2) :=
  C9_invoke_export_fast_path c3Engine 40 2 (asciiBytes "add") (by decide)

/-! ## C4 — intercept ordering -/

theorem exceptPureBind {ε α β : Type} (a : α) (f : α → Except ε β) :
    (pure a : Except ε α) >>= f = f a := rfl

theorem exceptOkBind {ε α β : Type} (a : α) (f : α → Except ε β) :
    (Except.ok a : Except ε α) >>= f = f a := rfl

theorem exceptErrorBind {ε α β : Type} (er : ε) (f : α → Except ε β) :
    (Except.error er : Except ε α) >>= f = .error er := rfl

theorem exceptMapOk {ε α β : Type} (g : α → β) (a : α) :
    Except.map g (Except.ok a : Except ε α) = .ok (g a) := rfl

theorem exceptMapError {ε α β : Type} (g : α → β) (er : ε) :
    Except.map g (Except.error er : Except ε α) = .error er := rfl

/-- With no bypassing strategy, the `before_call` loop is the in-order
chain of `before_call`s. -/
theorem before_call_loop_no_bypass (n t f : List Nat) (l : List Strategy) :
    ∀ (a : List Value), (∀ s ∈ l, s.should_bypass = false) →
    before_call_loop n t f l a =
      Except.map .proceed
        (l.foldlM (fun (acc : List Value) (s : Strategy) => s.before_call n t f acc) a) := by
  induction l with
  | nil => intro a _; rfl
  | cons s rest ih =>
    intro a h
    simp only [before_call_loop, List.foldlM_cons]
    cases hb : s.before_call n t f a with
    | error er => rfl
    | ok a1 =>
      rw [h s (List.mem_cons_self s rest), exceptOkBind]
      simpa using ih a1 (fun s2 hs2 => h s2 (List.mem_cons_of_mem _ hs2))

/-- With a first bypassing strategy `b` after non-bypassing `pre`, the
`before_call` loop is the chain over `pre` followed by `b`'s
`before_call`, flagged as a bypass; the strategies after `b` are never
consulted. -/
theorem before_call_loop_bypass (n t f : List Nat) (pre : List Strategy) :
    ∀ (b : Strategy) (post : List Strategy) (a : List Value),
      (∀ s ∈ pre, s.should_bypass = false) → b.should_bypass = true →
    before_call_loop n t f (pre ++ b :: post) a =
      Except.map .bypassed
        ((pre.foldlM (fun (acc : List Value) (s : Strategy) => s.before_call n t f acc) a) >>=
          (fun a1 => b.before_call n t f a1)) := by
  induction pre with
  | nil =>
    intro b post a _ hb
    simp only [List.nil_append, before_call_loop, List.foldlM_nil, exceptPureBind]
    cases hcall : b.before_call n t f a with
    | error er => rw [exceptMapError]
    | ok a1 => rw [exceptMapOk, hb]; rfl
  | cons s pre1 ih =>
    intro b post a h hb
    simp only [List.cons_append, before_call_loop, List.foldlM_cons]
    cases hcall : s.before_call n t f a with
    | error er => rw [exceptErrorBind, exceptErrorBind, exceptMapError]
    | ok a1 =>
      rw [h s (List.mem_cons_self s pre1), exceptOkBind]
      simpa using ih b post a1 (fun s2 hs2 => h s2 (List.mem_cons_of_mem _ hs2)) hb

/-- C4: `intercept_call` runs `before_call` on each strategy in list
order, each receiving the previous one's (possibly substituted)
arguments.  When no strategy bypasses and the chain yields `a1`, the
target is called once on `a1` and `after_call` folds over the
strategies in reverse order, each able to substitute the running
result.  When some strategy `b` (the first bypasser, after the
non-bypassing `pre`) reports `should_bypass`, the result is `b`'s
substituted arguments and the call result is independent of the target
function — the target is skipped. -/
theorem C4_intercept_ordering (li : LinkInterceptor) (target function : List Nat)
    (args : List Value) (call_fn : List Value → Except WError (List Value)) :
    ((∀ s ∈ li.strategies, s.should_bypass = false) →
      ∀ a1, li.strategies.foldlM (fun (acc : List Value) (s : Strategy) =>
          s.before_call li.name target function acc) args = .ok a1 →
      li.intercept_call target function args call_fn =
        (li.strategies.reverse).foldl
          (fun acc s => s.after_call li.name target function args acc) (call_fn a1)) ∧
    (∀ pre b post, li.strategies = pre ++ b :: post →
      (∀ s ∈ pre, s.should_bypass = false) → b.should_bypass = true →
      li.intercept_call target function args call_fn =
        ((pre.foldlM (fun (acc : List Value) (s : Strategy) =>
            s.before_call li.name target function acc) args) >>=
          (fun a1 => b.before_call li.name target function a1)) ∧
      ∀ g, li.intercept_call target function args g =
           li.intercept_call target function args call_fn) := by
  constructor
  · intro hnb a1 hchain
    unfold LinkInterceptor.intercept_call
    rw [before_call_loop_no_bypass li.name target function li.strategies args hnb, hchain,
        exceptMapOk]
  · intro pre b post hsplit hnb hb
    have key : before_call_loop li.name target function li.strategies args =
        Except.map .bypassed
          ((pre.foldlM (fun (acc : List Value) (s : Strategy) =>
              s.before_call li.name target function acc) args) >>=
            (fun a1 => b.before_call li.name target function a1)) := by
      rw [hsplit]
      exact before_call_loop_bypass li.name target function pre b post args hnb hb
    constructor
    · unfold LinkInterceptor.intercept_call
      rw [key]
      cases hch : (pre.foldlM (fun (acc : List Value) (s : Strategy) =>
          s.before_call li.name target function acc) args) >>=
            (fun a1 => b.before_call li.name target function a1) with
      | error er => rw [exceptMapError]
      | ok a1 => rw [exceptMapOk]
    · intro g
      unfold LinkInterceptor.intercept_call
      rw [key]
      cases hch : (pre.foldlM (fun (acc : List Value) (s : Strategy) =>
          s.before_call li.name target function acc) args) >>=
            (fun a1 => b.before_call li.name target function a1) with
      | error er => rw [exceptMapError]
      | ok a1 => rw [exceptMapOk]

/-- Witness for C4: the no-bypass interceptor on `[I32 5]` (the chain
yields `[I32 5, I32 1]`), the bypassing interceptor's substituted
result, and its independence from the target function. -/
theorem C4_intercept_ordering_witness :
    (c4PlainLI.intercept_call [] [] [.I32 5] (fun a => .ok a) =
       ((c4PlainLI.strategies.reverse).foldl
         (fun acc s => s.after_call c4PlainLI.name [] [] [.I32 5] acc)
         ((fun a => Except.ok a) [.I32 5, .I32 1]))) ∧
    (c4BypassLI.intercept_call [] [] [.I32 5] (fun a => .ok a) =
       (([c4Append].foldlM (fun (acc : List Value) (s : Strategy) =>
           s.before_call c4BypassLI.name [] [] acc) [.I32 5]) >>=
         (fun a1 => c4Bypass.before_call c4BypassLI.name [] [] a1))) ∧
    (c4BypassLI.intercept_call [] [] [.I32 5] (fun _ => .error .StackUnderflow) =
       c4BypassLI.intercept_call [] [] [.I32 5] (fun a => .ok a)) :=
  ⟨(C4_intercept_ordering c4PlainLI [] [] [.I32 5] (fun a => .ok a)).1
     (by decide) [.I32 5, .I32 1] rfl,
   ((C4_intercept_ordering c4BypassLI [] [] [.I32 5] (fun a => .ok a)).2
     [c4Append] c4Bypass [] rfl (by decide) rfl).1,
   ((C4_intercept_ordering c4BypassLI [] [] [.I32 5] (fun a => .ok a)).2
     [c4Append] c4Bypass [] rfl (by decide) rfl).2 (fun _ => .error .StackUnderflow)⟩


/-! ## Lemmas for the async cancellation claim -/

theorem listPosition_bind_get (p : α → Bool) (l : List α) :
    l.find? p = (listPosition p l).bind l.get? := by
  induction l with
  | nil => rfl
  | cons x rest ih =>
    by_cases h : p x
    · simp [listPosition, h]
    · simp only [listPosition, h, if_neg, Bool.false_eq_true, not_false_iff,
        List.find?_cons_of_neg, ih]
      cases listPosition p rest <;> simp

theorem listPosition_map (p : β → Bool) (f : α → β) (l : List α) :
    listPosition p (l.map f) = listPosition (fun a => p (f a)) l := by
  induction l with
  | nil => rfl
  | cons x rest ih => by_cases h : p (f x) <;> simp [listPosition, h, ih]

theorem get?_set_self (l : List α) (i : Nat) (a b : α) (h : l.get? i = some b) :
    (l.set i a).get? i = some a := by
  induction l generalizing i with
  | nil => simp at h
  | cons x rest ih =>
    cases i with
    | zero => rfl
    | succ m => simpa using ih m (by simpa using h)

theorem get?_set_other (l : List α) (i j : Nat) (a : α) (h : i ≠ j) :
    (l.set i a).get? j = l.get? j := by
  induction l generalizing i j with
  | nil => rfl
  | cons x rest ih =>
    cases i with
    | zero => cases j with
      | zero => exact absurd rfl h
      | succ m => rfl
    | succ n => cases j with
      | zero => rfl
      | succ m => simpa using ih n m (by omega)

theorem set_of_get? (l : List α) (n : Nat) (a : α) (h : l.get? n = some a) :
    l.set n a = l := by
  induction l generalizing n with
  | nil => rfl
  | cons x rest ih =>
    cases n with
    | zero => simp at h; simp [h]
    | succ m => simpa using ih m (by simpa using h)

theorem get?_listModify_eq (l : List α) (idx : Nat) (f : α → α) (x : α)
    (h : l.get? idx = some x) : (listModify l idx f).get? idx = some (f x) := by
  unfold listModify
  rw [h]
  exact get?_set_self l idx (f x) x h

theorem get?_listModify_other (l : List α) (idx j : Nat) (f : α → α) (h : idx ≠ j) :
    (listModify l idx f).get? j = l.get? j := by
  unfold listModify
  cases hg : l.get? idx with
  | none => rfl
  | some x => exact get?_set_other l idx j (f x) h

theorem map_listModify (l : List α) (idx : Nat) (f : α → α) (g : α → β)
    (h : ∀ x, g (f x) = g x) : (listModify l idx f).map g = l.map g := by
  unfold listModify
  cases hg : l.get? idx with
  | none => rfl
  | some x =>
    rw [List.map_set, h x]
    exact set_of_get? _ idx (g x) (by rw [List.get?_map, hg]; rfl)
theorem cancelEvolves_refl (eng : AsyncEngine) : cancelEvolves eng eng :=
  ⟨fun _ => Or.inl rfl, [], by simp⟩

theorem cancelEvolves_trans {a b c : AsyncEngine}
    (h1 : cancelEvolves a b) (h2 : cancelEvolves b c) : cancelEvolves a c := by
  obtain ⟨e1, l1, p1⟩ := h1
  obtain ⟨e2, l2, p2⟩ := h2
  refine ⟨fun i => ?_, l1 ++ l2, by rw [p2, p1, List.append_assoc]⟩
  rcases e2 i with h | ⟨ex, hb, hc⟩
  · rw [h]; exact e1 i
  · rcases e1 i with h | ⟨ex0, ha, hb0⟩
    · exact Or.inr ⟨ex, by rw [← h]; exact hb, hc⟩
    · refine Or.inr ⟨ex0, ha, ?_⟩
      rw [hb0] at hb
      injection hb with hb
      rw [hc, ← hb]

theorem cancelEvolves_return_pool (eng : AsyncEngine) (c : ExecutionContext) :
    cancelEvolves eng (eng.return_context_to_pool c) :=
  ⟨fun _ => Or.inl rfl, [c.reset], rfl⟩

theorem cancelEvolves_modify (eng : AsyncEngine) (idx : Nat) (st : AsyncStats) :
    cancelEvolves eng { eng with
      executions := listModify eng.executions idx
        (fun ex => { ex with state := AsyncExecutionState.Cancelled }),
      stats := st } := by
  refine ⟨fun i => ?_, [], by simp⟩
  by_cases hij : idx = i
  · subst hij
    cases hg : eng.executions.get? idx with
    | none => left; simp only [listModify, hg]
    | some x => exact Or.inr ⟨x, rfl, get?_listModify_eq _ _ _ _ hg⟩
  · left; exact get?_listModify_other _ _ _ _ hij

theorem cancel_fuel_evolves (fuel : Nat) :
    ∀ (eng : AsyncEngine) (id : Nat),
      cancelEvolves eng (cancel_execution_fuel fuel eng id).2 := by
  induction fuel with
  | zero => exact fun eng _ => cancelEvolves_refl eng
  | succ fuel ih =>
    have foldl_ev : ∀ (cs : List Nat) (eng : AsyncEngine),
        cancelEvolves eng
          (cs.foldl (fun acc c => (cancel_execution_fuel fuel acc c).2) eng) := by
      intro cs
      induction cs with
      | nil => exact cancelEvolves_refl
      | cons c rest ihc =>
        intro eng
        exact cancelEvolves_trans (ih eng c) (ihc _)
    intro eng id
    simp only [cancel_execution_fuel]
    split
    · exact cancelEvolves_refl eng
    · split
      · exact cancelEvolves_refl eng
      · split
        · exact cancelEvolves_trans (foldl_ev _ eng) (cancelEvolves_modify _ _ _)
        · exact cancelEvolves_trans (foldl_ev _ eng)
            (cancelEvolves_trans (cancelEvolves_modify _ _ _)
              (cancelEvolves_return_pool _ _))
theorem cancelEvolves_idsMap {a b : AsyncEngine} (h : cancelEvolves a b) :
    b.executions.map (fun ex => ex.id) = a.executions.map (fun ex => ex.id) := by
  apply List.ext_get?
  intro i
  rw [List.get?_map, List.get?_map]
  rcases h.1 i with heq | ⟨ex, ha, hb⟩
  · rw [heq]
  · rw [ha, hb]; rfl

theorem listPosition_eq_of_map {f : α → β} {l1 l2 : List α} (p : β → Bool)
    (h : l1.map f = l2.map f) :
    listPosition (fun a => p (f a)) l1 = listPosition (fun a => p (f a)) l2 := by
  rw [← listPosition_map p f l1, ← listPosition_map p f l2, h]

theorem cancelEvolves_pos {a b : AsyncEngine} (h : cancelEvolves a b) (x : Nat) :
    listPosition (fun ex => ex.id = x) b.executions
      = listPosition (fun ex => ex.id = x) a.executions :=
  @listPosition_eq_of_map _ _ (fun ex : AsyncExecution => ex.id)
    b.executions a.executions (fun n => n = x) (cancelEvolves_idsMap h)

theorem cancelEvolves_find {a b : AsyncEngine} (h : cancelEvolves a b) (x : Nat) :
    b.executions.find? (fun ex => ex.id = x) = a.executions.find? (fun ex => ex.id = x) ∨
    ∃ ex, a.executions.find? (fun ex1 => ex1.id = x) = some ex ∧
      b.executions.find? (fun ex1 => ex1.id = x)
        = some { ex with state := AsyncExecutionState.Cancelled } := by
  rw [listPosition_bind_get, listPosition_bind_get, cancelEvolves_pos h x]
  cases hp : listPosition (fun ex => ex.id = x) a.executions with
  | none => exact Or.inl rfl
  | some i =>
    rcases h.1 i with heq | ⟨ex, ha, hb⟩
    · left
      show b.executions.get? i = a.executions.get? i
      exact heq
    · right
      exact ⟨ex, ha, hb⟩

theorem cancelEvolves_stateOf_cancelled {a b : AsyncEngine} (h : cancelEvolves a b)
    (x : Nat) (hx : stateOf a x = some AsyncExecutionState.Cancelled) :
    stateOf b x = some AsyncExecutionState.Cancelled := by
  unfold stateOf at *
  rcases cancelEvolves_find h x with heq | ⟨ex, _, hb⟩
  · rw [heq]; exact hx
  · rw [hb]; rfl

theorem cancelEvolves_exId {a b : AsyncEngine} (h : cancelEvolves a b) (d : Nat) :
    (∃ e ∈ b.executions, e.id = d) ↔ (∃ e ∈ a.executions, e.id = d) := by
  have hm : d ∈ b.executions.map (fun ex => ex.id)
      ↔ d ∈ a.executions.map (fun ex => ex.id) := by
    rw [cancelEvolves_idsMap h]
  simpa [List.mem_map] using hm

theorem cancelEvolves_childRel {a b : AsyncEngine} (h : cancelEvolves a b) (p c : Nat) :
    childRel b p c ↔ childRel a p c := by
  constructor
  · rintro ⟨ex, hex, hid, hc⟩
    obtain ⟨i, hi⟩ := List.mem_iff_get?.mp hex
    rcases h.1 i with heq | ⟨ex0, ha, hb⟩
    · rw [heq] at hi
      exact ⟨ex, List.mem_iff_get?.mpr ⟨i, hi⟩, hid, hc⟩
    · rw [hb] at hi
      injection hi with hi
      subst hi
      exact ⟨ex0, List.mem_iff_get?.mpr ⟨i, ha⟩, hid, hc⟩
  · rintro ⟨ex, hex, hid, hc⟩
    obtain ⟨i, hi⟩ := List.mem_iff_get?.mp hex
    rcases h.1 i with heq | ⟨ex0, ha, hb⟩
    · rw [← heq] at hi
      exact ⟨ex, List.mem_iff_get?.mpr ⟨i, hi⟩, hid, hc⟩
    · rw [ha] at hi
      injection hi with hi
      exact ⟨{ ex with state := AsyncExecutionState.Cancelled },
        List.mem_iff_get?.mpr ⟨i, by rw [hb, hi]⟩, hid, hc⟩

theorem cancelEvolves_descendant {a b : AsyncEngine} (h : cancelEvolves a b) (x y : Nat) :
    descendantOf b x y ↔ descendantOf a x y :=
  ⟨Relation.TransGen.mono (fun p c hpc => (cancelEvolves_childRel h p c).mp hpc),
   Relation.TransGen.mono (fun p c hpc => (cancelEvolves_childRel h p c).mpr hpc)⟩

theorem cancelEvolves_mono {a b : AsyncEngine} (h : cancelEvolves a b)
    (hm : childrenMonotone a) : childrenMonotone b := by
  intro ex hex c hc
  obtain ⟨i, hi⟩ := List.mem_iff_get?.mp hex
  rcases h.1 i with heq | ⟨ex0, ha, hb⟩
  · rw [heq] at hi
    exact hm ex (List.mem_iff_get?.mpr ⟨i, hi⟩) c hc
  · rw [hb] at hi
    injection hi with hi
    subst hi
    exact hm ex0 (List.mem_iff_get?.mpr ⟨i, ha⟩) c hc

theorem cancelEvolves_nodup {a b : AsyncEngine} (h : cancelEvolves a b)
    (hn : idsNodup a) : idsNodup b := by
  unfold idsNodup at *
  rw [cancelEvolves_idsMap h]
  exact hn

theorem cancelEvolves_countGE {a b : AsyncEngine} (h : cancelEvolves a b) (id : Nat) :
    countGE b id = countGE a id := by
  unfold countGE
  rw [cancelEvolves_idsMap h]

theorem find?_of_mem_nodup (l : List AsyncExecution)
    (hn : (l.map (fun ex => ex.id)).Nodup) (ex : AsyncExecution) (hex : ex ∈ l)
    (x : Nat) (hid : ex.id = x) : l.find? (fun e => e.id = x) = some ex := by
  induction l with
  | nil => cases hex
  | cons y rest ih =>
    rw [List.map_cons] at hn
    obtain ⟨hhead, htail⟩ := List.nodup_cons.mp hn
    rcases List.mem_cons.mp hex with rfl | hmem
    · exact List.find?_cons_of_pos _ (by simp [hid])
    · by_cases hy : y.id = x
      · exfalso
        exact hhead (by
          rw [hy, ← hid]
          exact List.mem_map.mpr ⟨ex, hmem, rfl⟩)
      · rw [List.find?_cons_of_neg _ (by simp [hy])]
        exact ih htail hmem

theorem filter_length_mono_ge (L : List Nat) (id c : Nat) (hic : id ≤ c) :
    (L.filter (fun n => c ≤ n)).length ≤ (L.filter (fun n => id ≤ n)).length := by
  induction L with
  | nil => exact Nat.le_refl 0
  | cons a L ih =>
    by_cases h1 : c ≤ a
    · have h2 : id ≤ a := le_trans hic h1
      simp [List.filter_cons, h1, h2]
      omega
    · by_cases h2 : id ≤ a <;> simp [List.filter_cons, h1, h2] <;> omega

theorem filter_length_strict (L : List Nat) (id c : Nat) (hmem : id ∈ L)
    (hlt : id < c) :
    (L.filter (fun n => c ≤ n)).length < (L.filter (fun n => id ≤ n)).length := by
  induction L with
  | nil => cases hmem
  | cons a L ih =>
    rcases List.mem_cons.mp hmem with rfl | hmem2
    · have h1 : ¬ (c ≤ id) := by omega
      have h2 : id ≤ id := Nat.le_refl id
      simp [List.filter_cons, h1, h2]
      exact Nat.lt_succ_of_le (filter_length_mono_ge L id c (Nat.le_of_lt hlt))
    · have hrec := ih hmem2
      by_cases h1 : c ≤ a
      · have h2 : id ≤ a := by omega
        simp [List.filter_cons, h1, h2]
        omega
      · by_cases h2 : id ≤ a <;> simp [List.filter_cons, h1, h2] <;> omega

theorem countGE_le_length (eng : AsyncEngine) (id : Nat) :
    countGE eng id ≤ eng.executions.length := by
  unfold countGE
  calc ((eng.executions.map (fun ex => ex.id)).filter (fun n => id ≤ n)).length
      ≤ (eng.executions.map (fun ex => ex.id)).length := List.length_filter_le _ _
    _ = eng.executions.length := List.length_map _ _
theorem transGen_head_cases {r : α → α → Prop} {x y : α} (h : Relation.TransGen r x y) :
    r x y ∨ ∃ z, r x z ∧ Relation.TransGen r z y := by
  induction h with
  | single h1 => exact Or.inl h1
  | tail _ hbc ihh =>
    rcases ihh with h2 | ⟨z, hz, hzy⟩
    · exact Or.inr ⟨_, h2, Relation.TransGen.single hbc⟩
    · exact Or.inr ⟨z, hz, hzy.tail hbc⟩

theorem cancel_foldl_evolves (fuel : Nat) (cs : List Nat) (eng : AsyncEngine) :
    cancelEvolves eng
      (cs.foldl (fun acc c => (cancel_execution_fuel fuel acc c).2) eng) := by
  induction cs generalizing eng with
  | nil => exact cancelEvolves_refl eng
  | cons c rest ihc =>
    exact cancelEvolves_trans (cancel_fuel_evolves fuel eng c) (ihc _)

theorem stateOf_pos {eng : AsyncEngine} {id i : Nat}
    (hp : listPosition (fun ex => ex.id = id) eng.executions = some i) :
    stateOf eng id = (eng.executions.get? i).map (fun ex => ex.state) := by
  unfold stateOf
  rw [listPosition_bind_get, hp]
  rfl

theorem cancel_fuel_ok :
    ∀ (fuel : Nat) (eng : AsyncEngine) (id : Nat) (ex0 : AsyncExecution),
      childrenMonotone eng → idsNodup eng →
      eng.executions.find? (fun ex => ex.id = id) = some ex0 →
      countGE eng id < fuel →
      (cancel_execution_fuel fuel eng id).1 = Except.ok () ∧
      stateOf (cancel_execution_fuel fuel eng id).2 id
        = some AsyncExecutionState.Cancelled ∧
      (∀ d, descendantOf eng id d → (∃ exd ∈ eng.executions, exd.id = d) →
        stateOf (cancel_execution_fuel fuel eng id).2 d
          = some AsyncExecutionState.Cancelled) ∧
      (∃ mid, (cancel_execution_fuel fuel eng id).2.context_pool
        = eng.context_pool ++ mid ++ [ex0.context.reset]) := by
  intro fuel
  induction fuel with
  | zero =>
    intro eng id ex0 _ _ _ hcount
    exact absurd hcount (Nat.not_lt_zero _)
  | succ fuel ih =>
    intro eng id ex0 hmono hnodup hfound hcount
    have hex0id : ex0.id = id := by
      have := List.find?_some hfound
      simpa using this
    have hmemex0 : ex0 ∈ eng.executions := List.mem_of_find?_eq_some hfound
    have hfound2 := hfound
    rw [listPosition_bind_get] at hfound2
    cases hpos : listPosition (fun ex => ex.id = id) eng.executions with
    | none => rw [hpos] at hfound2; simp at hfound2
    | some idx =>
      rw [hpos] at hfound2
      have hget : eng.executions.get? idx = some ex0 := hfound2
      have hidx : eng.find_execution_index id = some idx := by
        unfold AsyncEngine.find_execution_index
        exact hpos
      have hidmem : id ∈ eng.executions.map (fun ex => ex.id) :=
        List.mem_map.mpr ⟨ex0, hmemex0, hex0id⟩
      -- facts about the child-cancelling fold
      have foldl_fact :
          ∀ (cs : List Nat), (∀ c ∈ cs, id < c) →
            ∀ (engk : AsyncEngine), cancelEvolves eng engk →
            cancelEvolves engk
              (cs.foldl (fun acc c => (cancel_execution_fuel fuel acc c).2) engk) ∧
            (∀ c ∈ cs, (∃ e ∈ eng.executions, e.id = c) →
              stateOf
                  (cs.foldl (fun acc c2 => (cancel_execution_fuel fuel acc c2).2) engk) c
                = some AsyncExecutionState.Cancelled ∧
              (∀ d, descendantOf eng c d → (∃ e ∈ eng.executions, e.id = d) →
                stateOf
                    (cs.foldl (fun acc c2 => (cancel_execution_fuel fuel acc c2).2) engk) d
                  = some AsyncExecutionState.Cancelled)) := by
        intro cs
        induction cs with
        | nil =>
          intro _ engk _
          exact ⟨cancelEvolves_refl engk, by simp⟩
        | cons c rest ihc =>
          intro hlt engk hev
          have hevs : cancelEvolves engk (cancel_execution_fuel fuel engk c).2 :=
            cancel_fuel_evolves fuel engk c
          have hev2 : cancelEvolves eng (cancel_execution_fuel fuel engk c).2 :=
            cancelEvolves_trans hev hevs
          have hrest := ihc (fun c2 hc2 => hlt c2 (List.mem_cons_of_mem c hc2))
            (cancel_execution_fuel fuel engk c).2 hev2
          rw [List.foldl_cons]
          refine ⟨cancelEvolves_trans hevs hrest.1, ?_⟩
          intro c2 hc2 hexc2
          rcases List.mem_cons.mp hc2 with rfl | hc2r
          · -- the head child: cancel it with the fuel induction hypothesis
            obtain ⟨exc, hmemk, hidk⟩ := (cancelEvolves_exId hev c2).mpr hexc2
            have hfk : engk.executions.find? (fun e => e.id = c2) = some exc :=
              find?_of_mem_nodup _ (cancelEvolves_nodup hev hnodup) exc hmemk c2 hidk
            have hstrict : countGE eng c2 < countGE eng id := by
              unfold countGE
              exact filter_length_strict _ id c2 hidmem (hlt c2 (List.mem_cons_self c2 rest))
            have hck : countGE engk c2 < fuel := by
              rw [cancelEvolves_countGE hev c2]
              omega
            have hmain := ih engk c2 exc (cancelEvolves_mono hev hmono)
              (cancelEvolves_nodup hev hnodup) hfk hck
            constructor
            · exact cancelEvolves_stateOf_cancelled hrest.1 c2 hmain.2.1
            · intro d hdd hexd
              have hddk : descendantOf (cancel_execution_fuel fuel engk c2).2 c2 d :=
                (cancelEvolves_descendant hev2 c2 d).mpr hdd
              have hddk2 : descendantOf engk c2 d :=
                (cancelEvolves_descendant hev c2 d).mpr hdd
              have hexdk : ∃ e ∈ engk.executions, e.id = d :=
                (cancelEvolves_exId hev d).mpr hexd
              exact cancelEvolves_stateOf_cancelled hrest.1 d
                (hmain.2.2.1 d hddk2 hexdk)
          · exact hrest.2 c2 hc2r hexc2
      have hchlt : ∀ c ∈ ex0.children, id < c := by
        intro c hc
        have := hmono ex0 hmemex0 c hc
        omega
      have hF := foldl_fact ex0.children hchlt eng (cancelEvolves_refl eng)
      simp only [cancel_execution_fuel, hidx, hget]
      set eng1 := ex0.children.foldl
        (fun acc c => (cancel_execution_fuel fuel acc c).2) eng with heng1
      have hev1 : cancelEvolves eng eng1 := hF.1
      -- the slot at idx after the fold
      have hget1 : eng1.executions.get? idx = some ex0 ∨
          eng1.executions.get? idx
            = some { ex0 with state := AsyncExecutionState.Cancelled } := by
        rcases hev1.1 idx with heq | ⟨ex1, ha, hb⟩
        · exact Or.inl (by rw [heq, hget])
        · rw [hget] at ha
          injection ha with ha
          subst ha
          exact Or.inr hb
      have hget2 : (listModify eng1.executions idx
            (fun ex => { ex with state := AsyncExecutionState.Cancelled })).get? idx
          = some { ex0 with state := AsyncExecutionState.Cancelled } := by
        rcases hget1 with h1 | h1
        · exact get?_listModify_eq _ _ _ _ h1
        · exact get?_listModify_eq _ _ _
            { ex0 with state := AsyncExecutionState.Cancelled } h1
      simp only [hget2]
      set eng2 : AsyncEngine := { eng1 with
        executions := listModify eng1.executions idx
          (fun ex => { ex with state := AsyncExecutionState.Cancelled }),
        stats := { eng1.stats with
          executions_cancelled := eng1.stats.executions_cancelled + 1 } } with heng2
      have hev12 : cancelEvolves eng1 eng2 := cancelEvolves_modify eng1 idx _
      have hev2 : cancelEvolves eng eng2 := cancelEvolves_trans hev1 hev12
      have hexecs3 : (eng2.return_context_to_pool ex0.context).executions
          = eng2.executions := rfl
      have hev23 : cancelEvolves eng2 (eng2.return_context_to_pool ex0.context) :=
        cancelEvolves_return_pool eng2 ex0.context
      have hev3 : cancelEvolves eng (eng2.return_context_to_pool ex0.context) :=
        cancelEvolves_trans hev2 hev23
      have hev13 : cancelEvolves eng1 (eng2.return_context_to_pool ex0.context) :=
        cancelEvolves_trans hev12 hev23
      refine ⟨trivial, ?_, ?_, ?_⟩
      · -- the target is Cancelled
        rw [stateOf_pos (by rw [cancelEvolves_pos hev3 id]; exact hpos), hexecs3]
        rw [show eng2.executions = listModify eng1.executions idx
          (fun ex => { ex with state := AsyncExecutionState.Cancelled }) from rfl]
        rw [hget2]
        rfl
      · -- every existing descendant is Cancelled
        intro d hdd hexd
        rcases transGen_head_cases hdd with hchild | ⟨c, hchild, htg⟩
        · obtain ⟨exP, hmemP, hidP, hcP⟩ := hchild
          have : eng.executions.find? (fun e => e.id = id) = some exP :=
            find?_of_mem_nodup _ hnodup exP hmemP id hidP
          rw [hfound] at this
          injection this with this
          subst this
          have hd := (hF.2 d hcP hexd).1
          exact cancelEvolves_stateOf_cancelled hev13 d hd
        · obtain ⟨exP, hmemP, hidP, hcP⟩ := hchild
          have : eng.executions.find? (fun e => e.id = id) = some exP :=
            find?_of_mem_nodup _ hnodup exP hmemP id hidP
          rw [hfound] at this
          injection this with this
          subst this
          by_cases hcex : ∃ e ∈ eng.executions, e.id = c
          · have hd := (hF.2 c hcP hcex).2 d htg hexd
            exact cancelEvolves_stateOf_cancelled hev13 d hd
          · exfalso
            rcases transGen_head_cases htg with hch2 | ⟨z, hch2, _⟩
            · obtain ⟨exC, hmemC, hidC, _⟩ := hch2
              exact hcex ⟨exC, hmemC, hidC⟩
            · obtain ⟨exC, hmemC, hidC, _⟩ := hch2
              exact hcex ⟨exC, hmemC, hidC⟩
      · -- the target's context is returned to the pool last
        obtain ⟨l, hl⟩ := hev1.2
        refine ⟨l, ?_⟩
        show eng2.context_pool ++ [ex0.context.reset]
          = eng.context_pool ++ l ++ [ex0.context.reset]
        rw [show eng2.context_pool = eng1.context_pool from rfl, hl]
theorem is_complete_of_cancelled {eng : AsyncEngine} {id : Nat}
    (h : stateOf eng id = some AsyncExecutionState.Cancelled) :
    eng.is_complete id = Except.ok true := by
  unfold stateOf at h
  cases hf : eng.executions.find? (fun ex => ex.id = id) with
  | none => rw [hf] at h; simp at h
  | some ex =>
    rw [hf] at h
    have hst : ex.state = AsyncExecutionState.Cancelled := by simpa using h
    simp only [AsyncEngine.is_complete, hf, hst]
    simp

theorem step_of_cancelled {eng : AsyncEngine} {id : Nat}
    (h : stateOf eng id = some AsyncExecutionState.Cancelled) :
    eng.step_execution id = (Except.ok StepResult.Cancelled, eng) := by
  unfold stateOf at h
  cases hf : eng.executions.find? (fun ex => ex.id = id) with
  | none => rw [hf] at h; simp at h
  | some ex =>
    rw [hf] at h
    have hst : ex.state = AsyncExecutionState.Cancelled := by simpa using h
    have hb := listPosition_bind_get (fun ex1 : AsyncExecution => ex1.id = id)
      eng.executions
    rw [hf] at hb
    cases hp : listPosition (fun ex1 : AsyncExecution => ex1.id = id) eng.executions with
    | none => rw [hp] at hb; simp at hb
    | some i =>
      rw [hp] at hb
      have hgeti : eng.executions.get? i = some ex := by simpa using hb.symm
      simp only [AsyncEngine.step_execution, AsyncEngine.find_execution_index, hp,
        hgeti, hst]
/-- **C8**: for every execution id found in an engine whose subtask
links are well formed (children ids strictly above their parent's, ids
distinct — the shape `start_execution`/`register_subtask` build),
`cancel_execution` succeeds, marks the target `Cancelled`, cancels every
execution in the subtask tree below it, and pushes the target's reset
context onto the context pool last; afterwards `is_complete` reports
true and `step_execution` returns `Cancelled` leaving the engine
unchanged. -/
theorem C8_cancel_recursive (eng : AsyncEngine) (id : Nat) (ex0 : AsyncExecution)
    (hmono : childrenMonotone eng) (hnodup : idsNodup eng)
    (hfound : eng.executions.find? (fun ex => ex.id = id) = some ex0) :
    (eng.cancel_execution id).1 = Except.ok () ∧
    stateOf (eng.cancel_execution id).2 id = some AsyncExecutionState.Cancelled ∧
    (∀ d, descendantOf eng id d → (∃ exd ∈ eng.executions, exd.id = d) →
      stateOf (eng.cancel_execution id).2 d = some AsyncExecutionState.Cancelled) ∧
    (∃ mid, (eng.cancel_execution id).2.context_pool
      = eng.context_pool ++ mid ++ [ex0.context.reset]) ∧
    (eng.cancel_execution id).2.is_complete id = Except.ok true ∧
    (eng.cancel_execution id).2.step_execution id
      = (Except.ok StepResult.Cancelled, (eng.cancel_execution id).2) := by
  have hcount : countGE eng id < eng.executions.length + 1 :=
    Nat.lt_succ_of_le (countGE_le_length eng id)
  have h := cancel_fuel_ok (eng.executions.length + 1) eng id ex0 hmono hnodup
    hfound hcount
  exact ⟨h.1, h.2.1, h.2.2.1, h.2.2.2,
    is_complete_of_cancelled h.2.1, step_of_cancelled h.2.1⟩

theorem C8_cancel_recursive_witness :
    childrenMonotone c8Eng ∧ idsNodup c8Eng ∧
    c8Eng.executions.find? (fun ex => ex.id = 1) = some c8Ex1 ∧
    ((c8Eng.cancel_execution 1).1 = Except.ok () ∧
     stateOf (c8Eng.cancel_execution 1).2 1 = some AsyncExecutionState.Cancelled ∧
     (∀ d, descendantOf c8Eng 1 d → (∃ exd ∈ c8Eng.executions, exd.id = d) →
       stateOf (c8Eng.cancel_execution 1).2 d = some AsyncExecutionState.Cancelled) ∧
     (∃ mid, (c8Eng.cancel_execution 1).2.context_pool
       = c8Eng.context_pool ++ mid ++ [c8Ex1.context.reset]) ∧
     (c8Eng.cancel_execution 1).2.is_complete 1 = Except.ok true ∧
     (c8Eng.cancel_execution 1).2.step_execution 1
       = (Except.ok StepResult.Cancelled, (c8Eng.cancel_execution 1).2)) :=
  ⟨by decide, by decide, rfl,
   C8_cancel_recursive c8Eng 1 c8Ex1 (by decide) (by decide) rfl⟩

end Wrt
